import Mathlib

/-!
Verification of the ai-research-assistant pipeline.

Python text values are modelled as `List Char` (`PyStr`); machine floats of
the scoring code are modelled as exact rationals `ℚ`; wall-clock instants are
modelled as integer seconds.  Fallible operations return `Except`.  The MD5
content hash of the memory subsystem is modelled as an explicit function
parameter `md5 : PyStr → PyStr`: every property proved below holds for an
arbitrary deterministic hash function, and witnesses instantiate it with a
concrete one.
-/

deriving instance DecidableEq for Except

namespace AIRA

/-- A Python `str`, modelled as its list of characters. -/
abbrev PyStr := List Char

/-- Characters matched by Python's `\s` class (ASCII range, as produced by
the code paths modelled here): space, tab, newline, carriage return,
vertical tab, form feed. -/
def isPySpace (c : Char) : Bool :=
  c = ' ' || c = '\t' || c = '\n' || c = '\r' || c = Char.ofNat 11 || c = Char.ofNat 12

/-- Python `str.strip()`: remove leading and trailing whitespace. -/
def pyStrip (l : PyStr) : PyStr :=
  ((l.dropWhile isPySpace).reverse.dropWhile isPySpace).reverse

/-- Python `str.lower()` (ASCII case folding). -/
def pyLower (l : PyStr) : PyStr := l.map Char.toLower

/-- Python substring test `needle in hay`. -/
def pyIn (needle hay : PyStr) : Bool :=
  hay.tails.any (fun t => needle.isPrefixOf t)

/-- Python `str.split()` with no separator: split on runs of whitespace,
dropping empty pieces. -/
def pySplitWsGo (cur : List Char) : List Char → List (List Char)
  | [] => if cur = [] then [] else [cur.reverse]
  | c :: rest =>
    if isPySpace c then
      if cur = [] then pySplitWsGo [] rest
      else cur.reverse :: pySplitWsGo [] rest
    else pySplitWsGo (c :: cur) rest

/-- Python `str.split()` (no separator argument). -/
def pySplitWs (l : PyStr) : List PyStr := pySplitWsGo [] l

/-- Number of whitespace-separated tokens, Python `len(s.split())`. -/
def wordCount (l : PyStr) : Nat := (pySplitWs l).length

/-- `re.sub(r'C+', ' ', s)` for a character class `p`: replace every maximal
run of `p`-characters by a single space.  The flag records whether the
previous character belonged to a run. -/
def collapseGo (p : Char → Bool) (inRun : Bool) : List Char → List Char
  | [] => []
  | c :: rest =>
    if p c then
      if inRun then collapseGo p true rest
      else ' ' :: collapseGo p true rest
    else c :: collapseGo p false rest

/-- `re.sub(r'\s+', ' ', s)`. -/
def collapseWs (l : PyStr) : PyStr := collapseGo isPySpace false l

/-- Characters matched by `[ \t]`. -/
def isSpTab (c : Char) : Bool := c = ' ' || c = '\t'

/-- `re.sub(r'[ \t]+', ' ', s)`. -/
def collapseSpTab (l : PyStr) : PyStr := collapseGo isSpTab false l

/-- Python slice `l[-n:]` for a non-negative `n` (`n = 0` selects the whole
list, `n > 0` the last `n` elements). -/
def pyTakeLast (l : List Char) (n : Nat) : List Char :=
  if n = 0 then l else l.drop (l.length - n)

/-- Python slice `l[start:]` with a possibly negative `start`. -/
def pySliceFrom {α : Type} (l : List α) (start : Int) : List α :=
  if start < 0 then l.drop (max 0 (l.length + start)).toNat
  else l.drop start.toNat

/-- Decimal rendering of a natural number, Python `str(n)`. -/
def natRepr (n : Nat) : PyStr := (Nat.repr n).data

/-- Decimal rendering of an integer, Python `str(n)`. -/
def intRepr (n : Int) : PyStr := (Int.repr n).data

-- ===========================================================================
-- Memory subsystem (src/src/memory_system.py)
-- ===========================================================================

/-- One record persisted in the Chroma collection by
`VectorMemoryManager.add_documents` (content plus the metadata fields the
code writes). -/
structure StoredItem where
  content : PyStr
  title : PyStr
  url : PyStr
  source : PyStr
  content_hash : PyStr
  word_count : Nat
  deriving DecidableEq

/-- Input dictionaries accepted by `add_documents` (`'content'`, `'title'`,
`'url'` keys). -/
structure DocDict where
  content : PyStr
  title : PyStr
  url : PyStr
  deriving DecidableEq

/-- State of `VectorMemoryManager`: the Chroma collection and the in-process
hash set used for deduplication. -/
structure VectorMemory where
  collection : List StoredItem
  content_hashes : List PyStr
  deriving DecidableEq

/-- `VectorMemoryManager.is_duplicate` (memory_system.py lines 96-99): a pure
hash lookup. -/
def is_duplicate (md5 : PyStr → PyStr) (m : VectorMemory) (content : PyStr) : Bool :=
  m.content_hashes.contains (md5 content)

/-- Statistics dictionary returned by `add_documents`. -/
structure AddStats where
  added : Nat
  skipped : Nat
  total_in_db : Nat
  deriving DecidableEq

/-- The per-document loop of `add_documents` (lines 125-150): returns
(added, skipped, items batched for insertion) and threads the hash set. -/
def addDocumentsGo (md5 : PyStr → PyStr) (source : PyStr) (check : Bool) :
    List DocDict → List PyStr → Nat × Nat × List StoredItem × List PyStr
  | [], hashes => (0, 0, [], hashes)
  | doc :: rest, hashes =>
    if check && hashes.contains (md5 doc.content) then
      let r := addDocumentsGo md5 source check rest hashes
      (r.1, r.2.1 + 1, r.2.2)
    else
      let h := md5 doc.content
      let item : StoredItem :=
        { content := doc.content, title := doc.title, url := doc.url,
          source := source, content_hash := h,
          word_count := wordCount doc.content }
      let r := addDocumentsGo md5 source check rest (h :: hashes)
      (r.1 + 1, r.2.1, item :: r.2.2.1, r.2.2.2)

/-- `VectorMemoryManager.add_documents` (memory_system.py lines 101-167):
skip known hashes when `check_duplicates`, batch-insert the rest, insert
their hashes, and report `added`/`skipped`/`total_in_db`. -/
def add_documents (md5 : PyStr → PyStr) (m : VectorMemory) (docs : List DocDict)
    (source : PyStr) (check : Bool) : AddStats × VectorMemory :=
  let r := addDocumentsGo md5 source check docs m.content_hashes
  let coll := m.collection ++ r.2.2.1
  ({ added := r.1, skipped := r.2.1, total_in_db := coll.length },
   { collection := coll, content_hashes := r.2.2.2 })

/-- One conversation entry (`add_conversation`).  The iso timestamp is an
opaque rendered string; metadata keys map to the integer values the pipeline
stores. -/
structure ConvEntry where
  timestamp : PyStr
  user : PyStr
  assistant : PyStr
  metadata : List (PyStr × Int)
  deriving DecidableEq

/-- One `research_cache` record: the cached value plus its timestamp in
integer seconds. -/
structure CacheRec (ρ : Type) where
  result : ρ
  timestamp : Int

/-- State of `AgentMemoryManager`, parameterised by the type `ρ` of cached
research results (the code stores arbitrary objects). -/
structure AgentMemory (ρ : Type) where
  conversation_history : List ConvEntry
  max_history : Nat
  research_cache : List (PyStr × CacheRec ρ)
  topic_keywords : List (PyStr × List PyStr)

/-- Association-list update mirroring Python `d[k] = v`. -/
def assocSet {β : Type} (l : List (PyStr × β)) (k : PyStr) (v : β) : List (PyStr × β) :=
  match l with
  | [] => [(k, v)]
  | (k₀, v₀) :: rest =>
    if k₀ = k then (k, v) :: rest else (k₀, v₀) :: assocSet rest k v

/-- Association-list lookup mirroring Python `d.get(k)` / `k in d`. -/
def assocGet {β : Type} (l : List (PyStr × β)) (k : PyStr) : Option β :=
  match l with
  | [] => none
  | (k₀, v₀) :: rest => if k₀ = k then some v₀ else assocGet rest k

/-- `AgentMemoryManager.add_research_result` (memory_system.py lines 342-349):
cache the result under the topic with the current timestamp and record the
keywords. -/
def add_research_result {ρ : Type} (m : AgentMemory ρ) (topic : PyStr) (result : ρ)
    (keywords : List PyStr) (now : Int) : AgentMemory ρ :=
  { m with
    research_cache := assocSet m.research_cache topic ⟨result, now⟩,
    topic_keywords := assocSet m.topic_keywords topic keywords }

/-- `AgentMemoryManager.get_research_result` (memory_system.py lines 351-365):
return the cached value unless it is absent or older than `max_age_hours`
hours. -/
def get_research_result {ρ : Type} (m : AgentMemory ρ) (topic : PyStr)
    (max_age_hours : Int) (now : Int) : Option ρ :=
  match assocGet m.research_cache topic with
  | none => none
  | some rec₀ =>
    if now - rec₀.timestamp > max_age_hours * 3600 then none
    else some rec₀.result

/-- `AgentMemoryManager.add_conversation` (memory_system.py lines 326-340):
append an entry to the bounded deque (`maxlen = max_history`). -/
def add_conversation {ρ : Type} (m : AgentMemory ρ) (nowIso : PyStr)
    (user assistant : PyStr) (metadata : List (PyStr × Int)) : AgentMemory ρ :=
  let hist := m.conversation_history ++ [⟨nowIso, user, assistant, metadata⟩]
  { m with
    conversation_history :=
      if hist.length > m.max_history then hist.drop (hist.length - m.max_history)
      else hist }

-- ===========================================================================
-- Claim C8 and C9 theorems
-- ===========================================================================

theorem assocGet_assocSet {β : Type} (l : List (PyStr × β)) (k : PyStr) (v : β) :
    assocGet (assocSet l k v) k = some v := by
  induction l with
  | nil => simp [assocSet, assocGet]
  | cons hd tl ih =>
    obtain ⟨k₀, v₀⟩ := hd
    by_cases h : k₀ = k
    · simp [assocSet, assocGet, h]
    · simp [assocSet, assocGet, h, ih]

/-- Claim C8: after `add_documents` stores a single item with content `c`,
`is_duplicate c` holds, and a second `add_documents` of the same content with
duplicate checking reports that item as skipped (`skipped = 1`) and adds
nothing (`added = 0`). -/
theorem add_then_duplicate_skips (md5 : PyStr → PyStr) (m : VectorMemory)
    (c t u c2 t2 u2 src src2 : PyStr) :
    let m1 := (add_documents md5 m [⟨c, t, u⟩] src true).2
    is_duplicate md5 m1 c = true ∧
    (add_documents md5 m1 [⟨c, c2, t2⟩] src2 true).1.added = 0 ∧
    (add_documents md5 m1 [⟨c, u2, u⟩] src2 true).1.skipped = 1 := by
  intro m1
  have hmem : md5 c ∈ m1.content_hashes := by
    by_cases h : md5 c ∈ m.content_hashes
    · simp only [m1, add_documents, addDocumentsGo]
      rw [if_pos (by simpa using h)]
      simpa using h
    · simp only [m1, add_documents, addDocumentsGo]
      rw [if_neg (by simpa using h)]
      simp
  have hdup : is_duplicate md5 m1 c = true := by simpa [is_duplicate] using hmem
  refine ⟨hdup, ?_, ?_⟩
  · simp [add_documents, addDocumentsGo, hmem]
  · simp [add_documents, addDocumentsGo, hmem]

/-- Claim C9: caching a result and reading it back within the age bound
returns it; reading it with `max_age_hours = 0` at any strictly later time
treats the entry as missing. -/
theorem cache_put_get {ρ : Type} (m : AgentMemory ρ) (topic : PyStr) (r : ρ)
    (kw : List PyStr) (t0 t1 maxAge : Int) :
    (t1 - t0 ≤ maxAge * 3600 →
      get_research_result (add_research_result m topic r kw t0) topic maxAge t1 = some r) ∧
    (t0 < t1 →
      get_research_result (add_research_result m topic r kw t0) topic 0 t1 = none) := by
  constructor
  · intro h
    simp [get_research_result, add_research_result, assocGet_assocSet]
    omega
  · intro h
    simp [get_research_result, add_research_result, assocGet_assocSet]
    omega

/-- Witness for C8-style reasoning is not needed (no hypotheses); witness for
C9 at a concrete instant: put at time 0, get at time 10 with a 24-hour bound
returns the value, and with a zero bound returns nothing. -/
theorem cache_put_get_witness :
    get_research_result
      (add_research_result
        (⟨[], 100, [], []⟩ : AgentMemory Nat) [Char.ofNat 97] 7 [] 0)
      [Char.ofNat 97] 24 10 = some 7 ∧
    get_research_result
      (add_research_result
        (⟨[], 100, [], []⟩ : AgentMemory Nat) [Char.ofNat 97] 7 [] 0)
      [Char.ofNat 97] 0 10 = none :=
  ⟨(cache_put_get (⟨[], 100, [], []⟩ : AgentMemory Nat) [Char.ofNat 97] 7 [] 0 10 24).1
      (by decide),
   (cache_put_get (⟨[], 100, [], []⟩ : AgentMemory Nat) [Char.ofNat 97] 7 [] 0 10 0).2
      (by decide)⟩

-- ===========================================================================
-- Pipeline orchestrator (src/src/memory_integration.py)
-- ===========================================================================

/-- Error kinds raised by pipeline stages (§7 of the spec). -/
inductive PipelineErr where
  | searchFailure
  | extractionFailure
  | llmFailure
  | validationError
  | memoryFailure
  deriving DecidableEq

/-- The part of `ResearchOutput` the orchestrator reads (`total_found`). -/
structure ResearchData where
  total_found : Nat
  deriving DecidableEq

/-- The part of `ExtractionResult` the orchestrator reads and rewrites:
the document list (content/title/url) and `successful_extractions`. -/
structure ExtractionData where
  documents : List DocDict
  successful_extractions : Nat
  deriving DecidableEq

/-- The part of a `DocumentSummary` the orchestrator stores. -/
structure SummEntry where
  detailed_summary : PyStr
  title : PyStr
  url : PyStr
  deriving DecidableEq

/-- The part of `SummarizationOutput` the orchestrator reads. -/
structure SummarizationData where
  summaries : List SummEntry
  total_documents : Nat
  deriving DecidableEq

/-- The formatted-outputs dictionary the orchestrator reads
(`.get('markdown', …)`, `.get('text', …)`).  The source reads it through
`global_synthesis.final_report`; the model attaches the two entries the code
asks for directly to the report value. -/
structure FinalReportLite where
  markdown : Option PyStr
  text : Option PyStr
  deriving DecidableEq

/-- The `GlobalSynthesisOutput` the orchestrator caches; `str_repr` models
Python's `str(...)` fallback rendering of the object. -/
structure GlobalSynthesis where
  final_report : FinalReportLite
  word_count : Nat
  str_repr : PyStr
  deriving DecidableEq

/-- The four agent stages, modelled as effectful parameters: each stage call
either raises or returns its output.  Instantiations of these stubs play the
role of the stubbed agents in the spec's end-to-end scenarios. -/
structure PipelineStages where
  research : Except PipelineErr ResearchData
  extract : ResearchData → Except PipelineErr ExtractionData
  summarize : ExtractionData → Except PipelineErr SummarizationData
  synthesize : SummarizationData → Except PipelineErr GlobalSynthesis

/-- `IntegratedMemorySystem`: the vector store plus the agent memory. -/
structure IntegratedMemory where
  vector : VectorMemory
  agent : AgentMemory GlobalSynthesis

/-- The duplicate check of `research_complete_pipeline_with_memory`
(memory_integration.py lines 106-118): keep the documents whose content is
not yet a duplicate in the vector memory, count the rest, and rewrite
`extraction_data.documents` when any duplicate was found.  The hash set is
only read, never extended, during this loop. -/
def dedupStep (md5 : PyStr → PyStr) (vm : VectorMemory) (exd : ExtractionData) :
    ExtractionData :=
  if exd.documents = [] then exd
  else
    let new_docs := exd.documents.filter (fun d => !(is_duplicate md5 vm d.content))
    let duplicates := exd.documents.countP (fun d => is_duplicate md5 vm d.content)
    if duplicates > 0 then { exd with documents := new_docs } else exd

/-- `IntegratedMemorySystem.process_research_result` (memory_system.py lines
446-502): store the documents (source `research`), the summaries (source
`summary`), one synthesis record, and cache the synthesis under the topic.
`list(set(...))` over the derived keywords is modelled as `List.dedup`
(CPython set iteration order is unspecified; the keywords are only stored,
never compared, in the verified claims). -/
def processResearchResult (md5 : PyStr → PyStr) (mem : IntegratedMemory)
    (topic : PyStr) (exd : ExtractionData) (sdata : SummarizationData)
    (gs : GlobalSynthesis) (now : Int) : IntegratedMemory :=
  let v1 := (add_documents md5 mem.vector
    (exd.documents.map (fun d => ⟨d.content, d.title, d.url⟩)) "research".data true).2
  let v2 := (add_documents md5 v1
    (sdata.summaries.map (fun s => ⟨s.detailed_summary, s.title, s.url⟩))
    "summary".data true).2
  let synthesis_text := gs.final_report.text.getD []
  let v3 := (add_documents md5 v2
    [⟨synthesis_text, "Synthèse: ".data ++ topic, []⟩] "synthesis".data true).2
  let all_text := List.intercalate [' ']
    ((exd.documents.take 3).map (fun d => d.content.take 100))
  let keywords := ((pySplitWs all_text).take 10).dedup
  let a1 := add_research_result mem.agent topic gs keywords now
  ⟨v3, a1⟩

/-- `research_complete_pipeline_with_memory` (memory_integration.py lines
29-173): cache lookup, the four stages in sequence with the duplicate check
between extraction and summarization, then persistence, a conversation
entry, and the markdown rendering.  The body has no exception handler: a
stage error is returned as the raised exception. -/
def runPipeline (md5 : PyStr → PyStr) (stages : PipelineStages) (topic : PyStr)
    (max_results : Nat) (use_cache : Bool) (now : Int) (nowIso : PyStr)
    (mem : IntegratedMemory) : Except PipelineErr PyStr × IntegratedMemory :=
  match (if use_cache then get_research_result mem.agent topic 24 now else none) with
  | some rep => (.ok (rep.final_report.markdown.getD rep.str_repr), mem)
  | none =>
    match stages.research with
    | .error e => (.error e, mem)
    | .ok rdata =>
      match stages.extract rdata with
      | .error e => (.error e, mem)
      | .ok exd =>
        match stages.summarize (dedupStep md5 mem.vector exd) with
        | .error e => (.error e, mem)
        | .ok sdata =>
          match stages.synthesize sdata with
          | .error e => (.error e, mem)
          | .ok gs =>
            let mem1 := processResearchResult md5 mem topic
              (dedupStep md5 mem.vector exd) sdata gs now
            let agent2 := add_conversation mem1.agent nowIso
              ("Recherche sur: ".data ++ topic)
              ((gs.final_report.text.getD []).take 200)
              [("max_results".data, (max_results : Int)),
               ("sources".data, (rdata.total_found : Int))]
            (.ok (gs.final_report.markdown.getD (gs.final_report.text.getD gs.str_repr)),
             ⟨mem1.vector, agent2⟩)

-- ===========================================================================
-- get_research_history tool (memory_integration.py lines 213-242)
-- ===========================================================================

/-- The message returned for an empty selection. -/
def noHistoryMsg : PyStr := "Aucun historique de recherche disponible.".data

/-- Python `repr` of the metadata dict printed by the history tool. -/
def pyDictRepr (l : List (PyStr × Int)) : PyStr :=
  Char.ofNat 123 ::
    (List.intercalate ", ".data
      (l.map (fun kv =>
        Char.ofNat 39 :: kv.1 ++ [Char.ofNat 39] ++ ": ".data ++ intRepr kv.2)))
  ++ [Char.ofNat 125]

/-- One formatted entry of the history listing. -/
def historyEntry (i : Nat) (conv : ConvEntry) : PyStr :=
  "[Recherche ".data ++ natRepr i ++ "] - ".data ++ conv.timestamp ++ "\n".data
  ++ "Topic: ".data ++ conv.user.take 100 ++ "\n".data
  ++ (if conv.metadata = [] then [] else
        "Détails: ".data ++ pyDictRepr conv.metadata ++ "\n".data)
  ++ "\n".data

/-- The enumerated entry listing (Python `enumerate(history, 1)`). -/
def historyEntries (i : Nat) : List ConvEntry → PyStr
  | [] => []
  | conv :: rest => historyEntry i conv ++ historyEntries (i + 1) rest

/-- `get_research_history` (memory_integration.py lines 213-242): select the
slice `history[-n_last:]` and render it, or the no-history message when the
selection is empty. -/
def get_research_history (history : List ConvEntry) (n_last : Int) : PyStr :=
  let h := pySliceFrom history (-n_last)
  if h = [] then noHistoryMsg
  else
    "📚 Historique des ".data ++ natRepr h.length
      ++ " dernières recherches:\n\n".data ++ historyEntries 1 h

-- ===========================================================================
-- Claim C10 theorem
-- ===========================================================================

theorem pySliceFrom_zero {α : Type} (l : List α) : pySliceFrom l (-(0 : Int)) = l := by
  simp [pySliceFrom]

theorem pySliceFrom_neg_length {α : Type} (l : List α) :
    pySliceFrom l (-(l.length : Int)) = l := by
  rcases eq_or_ne l [] with h | h
  · subst h; simp [pySliceFrom]
  · have hl : 0 < l.length := List.length_pos.mpr h
    simp only [pySliceFrom]
    rw [if_pos (by omega)]
    have h0 : ((l.length : Int) + -(l.length : Int)) = 0 := by ring
    rw [h0]
    simp

/-- Claim C10: with `n_last = 0` the history tool renders the entire
conversation log (`list[-0:]` selects everything): it behaves exactly as if
all entries had been requested, and on a non-empty log it does not return
the empty-history message. -/
theorem research_history_zero_selects_all (history : List ConvEntry) :
    get_research_history history 0 = get_research_history history history.length ∧
    (history ≠ [] → get_research_history history 0 ≠ noHistoryMsg) := by
  have hslice0 : pySliceFrom history (-(0 : Int)) = history := pySliceFrom_zero history
  have hsliceL : pySliceFrom history (-(history.length : Int)) = history :=
    pySliceFrom_neg_length history
  constructor
  · simp only [get_research_history, hslice0, hsliceL]
  · intro hne
    simp only [get_research_history, hslice0, if_neg hne]
    intro heq
    have h1 : (("📚 Historique des ".data ++ natRepr history.length
        ++ " dernières recherches:\n\n".data ++ historyEntries 1 history)).head? =
        noHistoryMsg.head? := by rw [heq]
    simp [noHistoryMsg] at h1

/-- Witness for C10: a one-entry log, rendered in full by `n_last = 0`. -/
theorem research_history_zero_selects_all_witness :
    get_research_history [⟨[], "t".data, [], []⟩] 0 =
      get_research_history [⟨[], "t".data, [], []⟩] 1 ∧
    get_research_history [⟨[], "t".data, [], []⟩] 0 ≠ noHistoryMsg :=
  ⟨(research_history_zero_selects_all [⟨[], "t".data, [], []⟩]).1,
   (research_history_zero_selects_all [⟨[], "t".data, [], []⟩]).2 (by decide)⟩

-- ===========================================================================
-- Claim C1 and C5 theorems
-- ===========================================================================

/-- On any run in which the pipeline result is a raised error, the memory
system is completely untouched (in particular no conversation entry is
appended): all memory writes happen after the last stage has succeeded. -/
theorem pipeline_error_leaves_memory_aux (md5 : PyStr → PyStr)
    (stages : PipelineStages) (topic : PyStr) (max_results : Nat)
    (use_cache : Bool) (now : Int) (nowIso : PyStr) (mem : IntegratedMemory) :
    (runPipeline md5 stages topic max_results use_cache now nowIso mem).2 = mem ∨
    ∃ s, (runPipeline md5 stages topic max_results use_cache now nowIso mem).1 =
      Except.ok s := by
  simp only [runPipeline]
  split
  · exact Or.inr ⟨_, rfl⟩
  · split
    · exact Or.inl rfl
    · split
      · exact Or.inl rfl
      · split
        · exact Or.inl rfl
        · split
          · exact Or.inl rfl
          · exact Or.inr ⟨_, rfl⟩

/-- Claim C5 (amended): when a stage raises, the pipeline aborts by
propagating the exception; the memory — including the conversation log — is
left unchanged, so no error entry is recorded and the caller receives the
exception rather than an error string. -/
theorem pipeline_stage_error_propagates (md5 : PyStr → PyStr)
    (stages : PipelineStages) (topic : PyStr) (max_results : Nat)
    (use_cache : Bool) (now : Int) (nowIso : PyStr) (mem : IntegratedMemory)
    (e : PipelineErr)
    (h : (runPipeline md5 stages topic max_results use_cache now nowIso mem).1 =
      Except.error e) :
    (runPipeline md5 stages topic max_results use_cache now nowIso mem).2 = mem := by
  rcases pipeline_error_leaves_memory_aux md5 stages topic max_results use_cache
      now nowIso mem with h2 | ⟨s, hs⟩
  · exact h2
  · rw [hs] at h
    exact absurd h (by simp)

/-- A concrete identity "hash" used to instantiate the `md5` parameter in
witnesses and counterexamples. -/
def mdId : PyStr → PyStr := fun l => l

/-- The empty memory system. -/
def emptyMem : IntegratedMemory := ⟨⟨[], []⟩, ⟨[], 100, [], []⟩⟩

/-- Stage stubs whose Researcher raises (spec scenario S6 shape). -/
def failingStages : PipelineStages where
  research := .error .searchFailure
  extract := fun _ => .ok ⟨[], 0⟩
  summarize := fun exd => .ok ⟨[], exd.documents.length⟩
  synthesize := fun s => .ok ⟨⟨some (natRepr s.total_documents), none⟩, 0, []⟩

/-- Counterexample to claim C5 as stated: on a run whose Researcher stage
raises, the caller receives the raised exception — not a one-line error
string — and the conversation log receives no error entry (it stays empty). -/
theorem pipeline_error_no_log_entry_cex :
    (runPipeline mdId failingStages "ai".data 3 true 0 [] emptyMem).1 =
      Except.error PipelineErr.searchFailure ∧
    (runPipeline mdId failingStages "ai".data 3 true 0 [] emptyMem).2.agent.conversation_history
      = [] := by
  constructor <;> rfl

/-- Witness for the amended C5 theorem at the failing run above. -/
theorem pipeline_stage_error_propagates_witness :
    (runPipeline mdId failingStages "ai".data 3 true 0 [] emptyMem).2 = emptyMem :=
  pipeline_stage_error_propagates mdId failingStages "ai".data 3 true 0 [] emptyMem
    PipelineErr.searchFailure (by rfl)

/-- Claim C1 (amended): the pipeline's duplicate check drops exactly the
documents whose content is already present in the memory store; documents
whose content is new all pass — identical in-run duplicates included — and
`successful_extractions` is never rewritten. -/
theorem dedup_drops_only_stored_duplicates (md5 : PyStr → PyStr)
    (vm : VectorMemory) (exd : ExtractionData) :
    ((∀ d ∈ exd.documents, is_duplicate md5 vm d.content = false) →
      dedupStep md5 vm exd = exd) ∧
    ((∀ d ∈ exd.documents, is_duplicate md5 vm d.content = true) →
      (dedupStep md5 vm exd).documents = []) ∧
    (dedupStep md5 vm exd).successful_extractions = exd.successful_extractions := by
  refine ⟨?_, ?_, ?_⟩
  · intro hall
    unfold dedupStep
    rcases hdocs : exd.documents with _ | ⟨d0, rest⟩
    · simp
    · rw [if_neg (by simp)]
      have hcnt : (d0 :: rest).countP (fun d => is_duplicate md5 vm d.content) = 0 := by
        rw [List.countP_eq_zero]
        intro d hd
        simp [hall d (hdocs ▸ hd)]
      simp [hdocs, hcnt]
  · intro hall
    unfold dedupStep
    rcases hdocs : exd.documents with _ | ⟨d0, rest⟩
    · simpa using hdocs
    · rw [if_neg (by simp)]
      have hcnt : 0 < (d0 :: rest).countP (fun d => is_duplicate md5 vm d.content) := by
        rw [List.countP_pos_iff]
        exact ⟨d0, by simp, by simp [hall d0 (hdocs ▸ List.mem_cons_self d0 rest)]⟩
      rw [if_pos hcnt]
      simp only
      rw [List.filter_eq_nil_iff]
      intro d hd
      simp [hall d (hdocs ▸ hd)]
  · simp only [dedupStep]
    split
    · rfl
    · split <;> rfl

/-- Witness for the amended C1 theorem: with an empty store nothing is
dropped (two identical new documents both survive); once the content is in
the store, every copy is dropped. -/
theorem dedup_drops_only_stored_duplicates_witness :
    dedupStep mdId ⟨[], []⟩ ⟨[⟨"c".data, [], []⟩, ⟨"c".data, [], []⟩], 2⟩ =
      ⟨[⟨"c".data, [], []⟩, ⟨"c".data, [], []⟩], 2⟩ ∧
    (dedupStep mdId ⟨[], ["c".data]⟩ ⟨[⟨"c".data, [], []⟩], 1⟩).documents = [] :=
  ⟨(dedup_drops_only_stored_duplicates mdId ⟨[], []⟩
      ⟨[⟨"c".data, [], []⟩, ⟨"c".data, [], []⟩], 2⟩).1 (by decide),
   (dedup_drops_only_stored_duplicates mdId ⟨[], ["c".data]⟩
      ⟨[⟨"c".data, [], []⟩], 1⟩).2.1 (by decide)⟩

/-- Stage stubs realising the spec's dedup scenario S3: the Extractor
returns two documents with identical content; the Summarizer stub records
how many documents it receives; the Synthesizer stub renders that count. -/
def dedupScenarioStages : PipelineStages where
  research := .ok ⟨2⟩
  extract := fun _ => .ok ⟨[⟨"same article text".data, "t1".data, "u1".data⟩,
                           ⟨"same article text".data, "t2".data, "u2".data⟩], 2⟩
  summarize := fun exd => .ok ⟨[], exd.documents.length⟩
  synthesize := fun s => .ok ⟨⟨some (natRepr s.total_documents), none⟩, 0, []⟩

/-- Counterexample to claim C1 as stated: over an empty memory store, both
identical documents pass the duplicate check — the number of documents
reaching the Summarizer is 2, not 1 — while `successful_extractions` is 2. -/
theorem dedup_two_reach_summarizer_cex :
    (runPipeline mdId dedupScenarioStages "ai".data 3 true 0 [] emptyMem).1 =
      Except.ok (natRepr 2) ∧
    (dedupStep mdId emptyMem.vector
        ⟨[⟨"same article text".data, "t1".data, "u1".data⟩,
          ⟨"same article text".data, "t2".data, "u2".data⟩], 2⟩).documents.length = 2 ∧
    (dedupStep mdId emptyMem.vector
        ⟨[⟨"same article text".data, "t1".data, "u1".data⟩,
          ⟨"same article text".data, "t2".data, "u2".data⟩], 2⟩).successful_extractions
      = 2 := by
  refine ⟨?_, by rfl, by rfl⟩
  rfl

-- ===========================================================================
-- Search manager and Researcher (src/src/services/search_api.py,
-- src/src/agents/researcher_agent.py)
-- ===========================================================================

/-- A search result as the Researcher sees it.  `days_old` models
`(datetime.now() - published_date).days` for results carrying a date;
`score` is the provider-supplied score, overwritten by the ranking step. -/
structure SearchResultM where
  title : PyStr
  snippet : PyStr
  url : PyStr
  days_old : Option Int
  score : Option ℚ
  deriving DecidableEq

/-- A provider adapter: `(query, max_results) → results`, raising on error. -/
abbrev SearchAdapter := PyStr → Nat → Except Unit (List SearchResultM)

/-- The priority order built by `SearchAPIManager.search` (search_api.py line
318): the preferred name first, then the remaining registered names in
registration order. -/
def apiOrder (apis : List (PyStr × SearchAdapter)) (preferred : PyStr) : List PyStr :=
  preferred :: (apis.map Prod.fst).filter (fun n => n ≠ preferred)

/-- The provider loop of `SearchAPIManager.search` (lines 320-339),
instrumented to also report which provider served the results: skip names
without an adapter, skip raising adapters and empty result lists, return the
first non-empty result list, and raise `SearchAPIError` when the order is
exhausted.  The un-instrumented source function is `managerSearch` below. -/
def searchLoop (apis : List (PyStr × SearchAdapter)) (q : PyStr) (maxr : Nat) :
    List PyStr → Except Unit (PyStr × List SearchResultM)
  | [] => .error ()
  | name :: rest =>
    match assocGet apis name with
    | none => searchLoop apis q maxr rest
    | some adapter =>
      match adapter q maxr with
      | .error _ => searchLoop apis q maxr rest
      | .ok results =>
        if results = [] then searchLoop apis q maxr rest else .ok (name, results)

/-- `SearchAPIManager.search` with the serving provider name exposed. -/
def managerSearchNamed (apis : List (PyStr × SearchAdapter)) (preferred q : PyStr)
    (maxr : Nat) : Except Unit (PyStr × List SearchResultM) :=
  searchLoop apis q maxr (apiOrder apis preferred)

/-- `SearchAPIManager.search` (search_api.py lines 299-339): the caller only
receives the result list — the serving provider's name is dropped. -/
def managerSearch (apis : List (PyStr × SearchAdapter)) (preferred q : PyStr)
    (maxr : Nat) : Except Unit (List SearchResultM) :=
  (managerSearchNamed apis preferred q maxr).map Prod.snd

/-- `ResearchQuery` (research_models.py lines 14-20): the fields the
Researcher reads. -/
structure ResearchQueryM where
  topic : PyStr
  keywords : List PyStr
  max_results : Nat
  search_depth : PyStr
  deriving DecidableEq

/-- `ResearcherAgent.validate_input` (researcher_agent.py lines 66-84). -/
def validateInput (q : ResearchQueryM) : Bool :=
  decide (3 ≤ (pyStrip q.topic).length) &&
  decide (1 ≤ q.max_results) && decide (q.max_results ≤ 20)

/-- `ResearcherAgent._prepare_search_query` (researcher_agent.py lines
154-189): topic, then keywords not already occurring in the topic
(case-insensitive substring), then fixed recency hints for `advanced`
queries over the two French trigger-word groups. -/
def prepareSearchQuery (q : ResearchQueryM) : PyStr :=
  let uniq := q.keywords.filter (fun kw => !(pyIn (pyLower kw) (pyLower q.topic)))
  let s0 := List.intercalate [' '] (q.topic :: uniq)
  let s :=
    if q.search_depth = "advanced".data then
      let s1 :=
        if pyIn "intelligence artificielle".data (pyLower s0) ||
           pyIn "ia".data (pyLower s0) then s0 ++ " 2024 2025 récent".data else s0
      if pyIn "emploi".data (pyLower s1) || pyIn "travail".data (pyLower s1) then
        s1 ++ " marché impact".data
      else s1
    else s0
  pyStrip s

/-- The 0.6-weighted summand of the relevance score: fraction of scoring
terms occurring in `title + " " + snippet` (researcher_agent.py lines
258-265); zero when there are no scoring terms. -/
def relTermPart (r : SearchResultM) (terms : List PyStr) : ℚ :=
  if terms = [] then 0
  else ((terms.countP (fun t => pyIn t (pyLower (r.title ++ [' '] ++ r.snippet))) : ℚ) /
      terms.length) * (3 / 5)

/-- The 0.3-weighted summand: fraction of scoring terms occurring in the
title alone (lines 267-271). -/
def relTitlePart (r : SearchResultM) (terms : List PyStr) : ℚ :=
  if terms = [] then 0
  else ((terms.countP (fun t => pyIn t (pyLower r.title)) : ℚ) / terms.length) * (3 / 10)

/-- The 0.1-weighted recency summand, added only for dated results at most
365 days old (lines 273-278). -/
def relRecencyPart (r : SearchResultM) : ℚ :=
  match r.days_old with
  | none => 0
  | some d => if d ≤ 365 then max 0 (1 - (d : ℚ) / 365) * (1 / 10) else 0

/-- `ResearcherAgent._calculate_relevance_score` (researcher_agent.py lines
237-284), over exact rationals: the three weighted summands, averaged with
a strictly positive provider score when one is present (`result.score and
result.score > 0`), capped at 1. -/
def calcRelevance (r : SearchResultM) (terms : List PyStr) : ℚ :=
  let score1 := relTermPart r terms + relTitlePart r terms + relRecencyPart r
  match r.score with
  | none => min score1 1
  | some s => if s > 0 then min ((score1 + s) / 2) 1 else min score1 1

/-- Stable insertion of one element into a score-descending list
(equal keys keep the incoming element first, matching Python's stable
`sort(..., reverse=True)`). -/
def insertDesc (x : SearchResultM) : List SearchResultM → List SearchResultM
  | [] => [x]
  | y :: ys =>
    if x.score.getD 0 ≥ y.score.getD 0 then x :: y :: ys else y :: insertDesc x ys

/-- Stable descending sort by `score or 0`. -/
def sortDescByScore : List SearchResultM → List SearchResultM
  | [] => []
  | x :: xs => insertDesc x (sortDescByScore xs)

/-- `ResearcherAgent._filter_and_rank_results` (researcher_agent.py lines
191-232): score every result, sort descending, drop scores below 0.1. -/
def filterAndRank (results : List SearchResultM) (topic : PyStr)
    (keywords : List PyStr) : List SearchResultM :=
  if results = [] then []
  else
    let terms := pyLower topic :: keywords.map pyLower
    let scored := results.map (fun r => { r with score := some (calcRelevance r terms) })
    (sortDescByScore scored).filter (fun r => r.score.getD 0 ≥ 1 / 10)

/-- The fields of `ResearchOutput` the claims mention. -/
structure ResearchOutputM where
  query : ResearchQueryM
  results : List SearchResultM
  total_found : Nat
  search_engine : PyStr
  deriving DecidableEq

/-- `ResearcherAgent.process` (researcher_agent.py lines 86-152): search via
the manager (preferred provider fixed to `"tavily"` by
`default_search_params`), rank and cut to `max_results`, and record
`search_params["preferred_api"]` — not the serving provider — as
`search_engine`.  A `SearchAPIError` is re-raised. -/
def researcherProcess (apis : List (PyStr × SearchAdapter)) (q : ResearchQueryM) :
    Except Unit ResearchOutputM :=
  match managerSearch apis "tavily".data (prepareSearchQuery q) q.max_results with
  | .error e => .error e
  | .ok results =>
    .ok { query := q,
          results := (filterAndRank results q.topic q.keywords).take q.max_results,
          total_found := results.length,
          search_engine := "tavily".data }

-- ===========================================================================
-- Claim C2 theorems
-- ===========================================================================

theorem searchLoop_error_iff (apis : List (PyStr × SearchAdapter)) (q : PyStr)
    (maxr : Nat) (order : List PyStr) :
    searchLoop apis q maxr order = .error () ↔
      ∀ n ∈ order, ∀ ad, assocGet apis n = some ad →
        (ad q maxr = .error () ∨ ad q maxr = .ok []) := by
  induction order with
  | nil => simp [searchLoop]
  | cons name rest ih =>
    constructor
    · intro h n hn ad had
      rcases hga : assocGet apis name with - | adapter
      · simp only [searchLoop, hga] at h
        rcases List.mem_cons.mp hn with hEq | hmem
        · subst hEq; rw [hga] at had; cases had
        · exact (ih.mp h) n hmem ad had
      · rcases hres : adapter q maxr with e | results
        · simp only [searchLoop, hga, hres] at h
          rcases List.mem_cons.mp hn with hEq | hmem
          · subst hEq
            rw [hga] at had
            cases had
            left
            cases e
            exact hres
          · exact (ih.mp h) n hmem ad had
        · rcases hempty : results with - | ⟨r0, rs⟩
          · simp only [searchLoop, hga, hres, hempty, if_pos rfl] at h
            rcases List.mem_cons.mp hn with hEq | hmem
            · subst hEq
              rw [hga] at had
              cases had
              right
              rw [hres, hempty]
            · exact (ih.mp (by simpa using h)) n hmem ad had
          · exfalso
            rw [hempty] at hres
            simp [searchLoop, hga, hres] at h
    · intro hall
      rcases hga : assocGet apis name with - | adapter
      · simp only [searchLoop, hga]
        exact ih.mpr (fun n hn => hall n (List.mem_cons_of_mem _ hn))
      · have hthis := hall name (List.mem_cons_self _ _) adapter hga
        rcases hthis with herr | hemp
        · simp only [searchLoop, hga, herr]
          exact ih.mpr (fun n hn => hall n (List.mem_cons_of_mem _ hn))
        · simp only [searchLoop, hga, hemp, if_pos rfl]
          exact ih.mpr (fun n hn => hall n (List.mem_cons_of_mem _ hn))

/-- Claim C2 (amended): whichever registered provider actually serves the
results, `ResearchOutput.search_engine` is always the preferred provider's
name (`"tavily"`); the Researcher fails exactly when every provider in the
priority order raises or returns no results. -/
theorem researcher_engine_and_failover (apis : List (PyStr × SearchAdapter))
    (q : ResearchQueryM) (name : PyStr) (res : List SearchResultM) :
    (managerSearchNamed apis "tavily".data (prepareSearchQuery q) q.max_results =
        .ok (name, res) →
      researcherProcess apis q =
        .ok { query := q,
              results := (filterAndRank res q.topic q.keywords).take q.max_results,
              total_found := res.length,
              search_engine := "tavily".data }) ∧
    (researcherProcess apis q = .error () ↔
      ∀ n ∈ apiOrder apis "tavily".data, ∀ ad, assocGet apis n = some ad →
        (ad (prepareSearchQuery q) q.max_results = .error () ∨
         ad (prepareSearchQuery q) q.max_results = .ok [])) := by
  constructor
  · intro h
    simp [researcherProcess, managerSearch, h, Except.map]
  · constructor
    · intro h
      rcases hms : managerSearchNamed apis "tavily".data (prepareSearchQuery q)
          q.max_results with e | pr
      · exact (searchLoop_error_iff apis _ _ _).mp (by cases e; exact hms)
      · exfalso
        simp [researcherProcess, managerSearch, hms, Except.map] at h
    · intro hall
      have herr : managerSearchNamed apis "tavily".data (prepareSearchQuery q)
          q.max_results = .error () :=
        (searchLoop_error_iff apis _ _ _).mpr hall
      simp [researcherProcess, managerSearch, herr, Except.map]

/-- A concrete raising adapter. -/
def failAdapter : SearchAdapter := fun _ _ => .error ()

/-- A concrete result served by the secondary provider. -/
def resultAiNews : SearchResultM :=
  { title := "ai news".data, snippet := "about ai".data, url := "https://e.x/1".data,
    days_old := none, score := none }

/-- A concrete registry: the preferred provider raises, the
later-registered provider serves one result. -/
def failoverApis : List (PyStr × SearchAdapter) :=
  [("tavily".data, failAdapter), ("serper".data, fun _ _ => .ok [resultAiNews])]

/-- The query used by the failover scenario. -/
def qAi : ResearchQueryM :=
  { topic := "ai news".data, keywords := [], max_results := 5,
    search_depth := "basic".data }

/-- The output the Researcher actually returns in the failover scenario. -/
def outFailover : ResearchOutputM :=
  { query := qAi,
    results := [{ resultAiNews with score := some (9 / 10) }],
    total_found := 1, search_engine := "tavily".data }

theorem calcRelevance_resultAiNews :
    calcRelevance resultAiNews [pyLower qAi.topic] = 9 / 10 := by
  have c1 : ([pyLower qAi.topic].countP
      (fun t => pyIn t (pyLower (resultAiNews.title ++ [' '] ++ resultAiNews.snippet)))) = 1 :=
    by decide
  have c2 : ([pyLower qAi.topic].countP
      (fun t => pyIn t (pyLower resultAiNews.title))) = 1 := by decide
  have hs : resultAiNews.score = none := rfl
  unfold calcRelevance relTermPart relTitlePart relRecencyPart
  rw [hs, c1, c2]
  have hd : resultAiNews.days_old = none := rfl
  rw [hd]
  norm_num

theorem researcherProcess_failover_eval :
    researcherProcess failoverApis qAi = .ok outFailover := by
  have e2 : managerSearchNamed failoverApis "tavily".data (prepareSearchQuery qAi)
      qAi.max_results = .ok ("serper".data, [resultAiNews]) := by decide
  have hterms : pyLower qAi.topic :: qAi.keywords.map pyLower = [pyLower qAi.topic] := rfl
  have e3 : filterAndRank [resultAiNews] qAi.topic qAi.keywords =
      [{ resultAiNews with score := some (9 / 10) }] := by
    unfold filterAndRank
    rw [if_neg (by simp)]
    rw [hterms]
    simp only [List.map_cons, List.map_nil, calcRelevance_resultAiNews]
    simp only [sortDescByScore, insertDesc]
    rw [List.filter_cons]
    rw [if_pos (by norm_num)]
    simp
  simp only [researcherProcess, managerSearch, e2, Except.map, e3]
  rfl

/-- Counterexample to claim C2 as stated: the preferred provider raises and
the secondary (`"serper"`) serves the results, yet the returned
`search_engine` is `"tavily"`, not the name of the provider that produced
the results. -/
theorem researcher_engine_not_secondary_cex :
    managerSearchNamed failoverApis "tavily".data (prepareSearchQuery qAi)
        qAi.max_results = .ok ("serper".data, [resultAiNews]) ∧
    (∃ out, researcherProcess failoverApis qAi = .ok out ∧
      out.search_engine = "tavily".data ∧ out.search_engine ≠ "serper".data) := by
  refine ⟨?_, outFailover, ?_, ?_, ?_⟩
  · decide
  · exact researcherProcess_failover_eval
  · decide
  · decide

/-- Witness for the amended C2 theorem on the concrete failover registry. -/
theorem researcher_engine_and_failover_witness :
    researcherProcess failoverApis qAi =
      .ok { query := qAi,
            results := (filterAndRank [resultAiNews] qAi.topic qAi.keywords).take
              qAi.max_results,
            total_found := 1,
            search_engine := "tavily".data } :=
  (researcher_engine_and_failover failoverApis qAi "serper".data [resultAiNews]).1
    (by decide)

-- ===========================================================================
-- Claim C6 theorems
-- ===========================================================================

theorem relTermPart_nonneg (r : SearchResultM) (terms : List PyStr) :
    0 ≤ relTermPart r terms := by
  unfold relTermPart
  split
  · exact le_refl 0
  · positivity

theorem relTitlePart_nonneg (r : SearchResultM) (terms : List PyStr) :
    0 ≤ relTitlePart r terms := by
  unfold relTitlePart
  split
  · exact le_refl 0
  · positivity

theorem relRecencyPart_nonneg (r : SearchResultM) : 0 ≤ relRecencyPart r := by
  unfold relRecencyPart
  rcases r.days_old with - | d
  · exact le_refl 0
  · dsimp only
    split
    · exact mul_nonneg (le_max_left 0 _) (by norm_num)
    · exact le_refl 0

theorem calcRelevance_bounds (r : SearchResultM) (terms : List PyStr) :
    0 ≤ calcRelevance r terms ∧ calcRelevance r terms ≤ 1 := by
  have h1 : 0 ≤ relTermPart r terms + relTitlePart r terms + relRecencyPart r :=
    add_nonneg (add_nonneg (relTermPart_nonneg r terms) (relTitlePart_nonneg r terms))
      (relRecencyPart_nonneg r)
  unfold calcRelevance
  rcases r.score with - | s
  · exact ⟨le_min h1 (by norm_num), min_le_right _ _⟩
  · dsimp only
    split
    · next hs =>
      refine ⟨le_min ?_ (by norm_num), min_le_right _ _⟩
      have : (0 : ℚ) ≤ relTermPart r terms + relTitlePart r terms + relRecencyPart r + s :=
        add_nonneg h1 (le_of_lt hs)
      linarith
    · exact ⟨le_min h1 (by norm_num), min_le_right _ _⟩

theorem mem_insertDesc (x y : SearchResultM) (l : List SearchResultM) :
    y ∈ insertDesc x l ↔ y = x ∨ y ∈ l := by
  induction l with
  | nil => simp [insertDesc]
  | cons z zs ih =>
    unfold insertDesc
    split
    · simp
    · simp only [List.mem_cons, ih]
      tauto

theorem mem_sortDescByScore (y : SearchResultM) (l : List SearchResultM) :
    y ∈ sortDescByScore l ↔ y ∈ l := by
  induction l with
  | nil => simp [sortDescByScore]
  | cons z zs ih =>
    unfold sortDescByScore
    rw [mem_insertDesc, ih]
    simp

/-- Claim C6: on every valid query for which the Researcher succeeds, the
output has at most `max_results` results and every result carries a score in
[0, 1]. -/
theorem researcher_results_bounded (apis : List (PyStr × SearchAdapter))
    (q : ResearchQueryM) (out : ResearchOutputM)
    (_hv : validateInput q = true)
    (h : researcherProcess apis q = .ok out) :
    out.results.length ≤ q.max_results ∧
    ∀ r ∈ out.results, ∃ s, r.score = some s ∧ 0 ≤ s ∧ s ≤ 1 := by
  rcases hms : managerSearch apis "tavily".data (prepareSearchQuery q) q.max_results
      with e | results
  · rw [researcherProcess, hms] at h
    cases h
  · rw [researcherProcess, hms] at h
    cases h
    constructor
    · simp [List.length_take_le]
    · intro r hr
      have hr1 : r ∈ filterAndRank results q.topic q.keywords :=
        List.take_subset _ _ hr
      unfold filterAndRank at hr1
      rcases hres : results with - | ⟨r0, rs⟩
      · rw [hres] at hr1
        simp at hr1
      · rw [hres] at hr1
        rw [if_neg (by simp)] at hr1
        have hr2 := List.mem_of_mem_filter hr1
        rw [mem_sortDescByScore] at hr2
        rcases List.mem_map.mp hr2 with ⟨r3, hr3, hr4⟩
        refine ⟨calcRelevance r3 (pyLower q.topic :: q.keywords.map pyLower), ?_, ?_, ?_⟩
        · rw [← hr4]
        · exact (calcRelevance_bounds r3 _).1
        · exact (calcRelevance_bounds r3 _).2

/-- Witness for C6 on the concrete failover registry: the single returned
result scores 9/10 ∈ [0, 1] and the result list is within the bound. -/
theorem researcher_results_bounded_witness :
    outFailover.results.length ≤ qAi.max_results ∧
    ∀ r ∈ outFailover.results, ∃ s, r.score = some s ∧ 0 ≤ s ∧ s ≤ 1 :=
  researcher_results_bounded failoverApis qAi outFailover (by decide)
    researcherProcess_failover_eval

-- ===========================================================================
-- Global Synthesizer quality assessment
-- (src/src/agents/global_synthesizer_agent.py)
-- ===========================================================================

/-- The fields of a `DocumentSummary` (document_models.py lines 160-187) the
synthesizer reads.  The pydantic model validates `credibility_score` with
`ge=0, le=1`; that validated invariant is carried as a hypothesis below. -/
structure DocumentSummaryM where
  title : PyStr
  url : PyStr
  executive_summary : PyStr
  detailed_summary : PyStr
  sentiment : Option PyStr
  credibility_score : Option ℚ
  deriving DecidableEq

/-- `ReportSection` (synthesis_models.py lines 134-143). -/
structure ReportSectionM where
  title : PyStr
  content : PyStr
  order : Nat
  deriving DecidableEq

/-- `SourceReference` (synthesis_models.py lines 146-154). -/
structure SourceReferenceM where
  title : PyStr
  url : PyStr
  credibility_score : Option ℚ
  citation_count : Nat
  deriving DecidableEq

/-- The quality-score dictionary produced by `_assess_quality`. -/
structure QualityScores where
  confidence_score : ℚ
  completeness_score : ℚ
  reliability_score : ℚ
  coherence_score : ℚ
  deriving DecidableEq

/-- `[s.credibility_score for s in summaries if s.credibility_score]`
(global_synthesizer_agent.py line 337): Python truthiness drops both `None`
and `0.0`. -/
def credList (summaries : List DocumentSummaryM) : List ℚ :=
  (summaries.filterMap (fun s => s.credibility_score)).filter (fun c => ¬(c = 0))

/-- `GlobalSynthesizerAgent._assess_quality` (lines 329-359):
`completeness = min(len(summaries)/5, 1)`, `reliability` the mean of the
truthy credibility scores (0.5 when there are none),
`coherence = min(len(sections)/3, 1)`, and the 0.4/0.4/0.2 weighted
confidence score. -/
def assessQuality (summaries : List DocumentSummaryM)
    (sections : List ReportSectionM) : QualityScores :=
  let creds := credList summaries
  let completeness : ℚ := min ((summaries.length : ℚ) / 5) 1
  let reliability : ℚ := if creds = [] then 1 / 2 else creds.sum / creds.length
  let coherence : ℚ := min ((sections.length : ℚ) / 3) 1
  { confidence_score := completeness * (2 / 5) + reliability * (2 / 5) +
      coherence * (1 / 5),
    completeness_score := completeness,
    reliability_score := reliability,
    coherence_score := coherence }

/-- `GlobalSynthesizerAgent._create_source_references` (lines 311-327): one
reference per summary, cited once by default. -/
def createSourceReferences (summaries : List DocumentSummaryM) :
    List SourceReferenceM :=
  summaries.map (fun s => ⟨s.title, s.url, s.credibility_score, 1⟩)

/-- The fields of `FinalReport` the verified claims mention
(`_assemble_final_report`, lines 361-438).  The French prose fields
(title/introduction/conclusion templates) and the id/timestamp fields are
formatting-only and omitted. -/
structure FinalReportM where
  main_sections : List ReportSectionM
  key_themes : List PyStr
  consensus_points : List PyStr
  conflicting_viewpoints : List PyStr
  sources : List SourceReferenceM
  confidence_score : ℚ
  completeness_score : ℚ
  total_sources_analyzed : Nat
  deriving DecidableEq

/-- `GlobalSynthesizerAgent._assemble_final_report` (lines 361-438): the
assembled report carries the sections, the cross-document lists capped at
10, the source references, and the two quality scores verbatim. -/
def assembleFinalReport (sections : List ReportSectionM)
    (source_references : List SourceReferenceM) (qs : QualityScores)
    (themes consensus conflicts : List PyStr) : FinalReportM :=
  { main_sections := sections,
    key_themes := themes.take 10,
    consensus_points := consensus.take 10,
    conflicting_viewpoints := conflicts.take 10,
    sources := source_references,
    confidence_score := qs.confidence_score,
    completeness_score := qs.completeness_score,
    total_sources_analyzed := source_references.length }

/-- Steps 5-7 of `GlobalSynthesizerAgent.process` (lines 110-126): build the
source references, assess quality over the generated sections, and assemble
the final report. -/
def synthesizeReport (summaries : List DocumentSummaryM)
    (sections : List ReportSectionM) (themes consensus conflicts : List PyStr) :
    FinalReportM :=
  assembleFinalReport sections (createSourceReferences summaries)
    (assessQuality summaries sections) themes consensus conflicts

/-- The pydantic `ge=0, le=1` validation of `credibility_score` as a
decidable predicate. -/
def credOkB (s : DocumentSummaryM) : Bool :=
  s.credibility_score.all (fun c => decide (0 ≤ c) && decide (c ≤ 1))

-- ===========================================================================
-- Claim C7 theorems
-- ===========================================================================

theorem credList_bounds (summaries : List DocumentSummaryM)
    (h : ∀ s ∈ summaries, credOkB s = true) :
    ∀ c ∈ credList summaries, 0 ≤ c ∧ c ≤ 1 := by
  intro c hc
  unfold credList at hc
  have hc2 := List.mem_of_mem_filter hc
  rcases List.mem_filterMap.mp hc2 with ⟨s, hs, hcs⟩
  have := h s hs
  unfold credOkB at this
  rw [hcs] at this
  simp only [Option.all_some, Bool.and_eq_true, decide_eq_true_eq] at this
  exact this

theorem reliability_bounds (summaries : List DocumentSummaryM)
    (sections : List ReportSectionM)
    (h : ∀ s ∈ summaries, credOkB s = true) :
    0 ≤ (assessQuality summaries sections).reliability_score ∧
    (assessQuality summaries sections).reliability_score ≤ 1 := by
  have hb := credList_bounds summaries h
  have hrel_eq : (assessQuality summaries sections).reliability_score =
      (if credList summaries = [] then (1 : ℚ) / 2
       else (credList summaries).sum / (credList summaries).length) := rfl
  rw [hrel_eq]
  by_cases hl : credList summaries = []
  · rw [if_pos hl]
    constructor <;> norm_num
  · rw [if_neg hl]
    have hlen : 0 < (credList summaries).length := List.length_pos.mpr hl
    have hlenQ : (0 : ℚ) < ((credList summaries).length : ℚ) := by exact_mod_cast hlen
    have hsum0 : 0 ≤ (credList summaries).sum :=
      List.sum_nonneg (fun c hc => (hb c hc).1)
    have hsum1 : (credList summaries).sum ≤ ((credList summaries).length : ℚ) := by
      calc (credList summaries).sum
          ≤ (credList summaries).length • (1 : ℚ) :=
            List.sum_le_card_nsmul _ 1 (fun c hc => (hb c hc).2)
        _ = ((credList summaries).length : ℚ) := by simp
    exact ⟨div_nonneg hsum0 (le_of_lt hlenQ), (div_le_one hlenQ).mpr hsum1⟩

/-- Claim C7: the assembled final report's confidence score lies in [0, 1]
and equals `0.4·completeness + 0.4·reliability + 0.2·coherence` with
`completeness = min(sources_count/5, 1)` and
`coherence = min(sections/3, 1)` — exactly, in the rational model. -/
theorem final_report_confidence_formula (summaries : List DocumentSummaryM)
    (sections : List ReportSectionM) (themes consensus conflicts : List PyStr)
    (h : ∀ s ∈ summaries, credOkB s = true) :
    0 ≤ (synthesizeReport summaries sections themes consensus conflicts).confidence_score ∧
    (synthesizeReport summaries sections themes consensus conflicts).confidence_score ≤ 1 ∧
    (synthesizeReport summaries sections themes consensus conflicts).confidence_score =
      min (((synthesizeReport summaries sections themes consensus conflicts).sources.length : ℚ) / 5) 1
          * (2 / 5)
        + (assessQuality summaries sections).reliability_score * (2 / 5)
        + min (((synthesizeReport summaries sections themes consensus conflicts).main_sections.length : ℚ) / 3) 1
          * (1 / 5) := by
  have hrel := reliability_bounds summaries sections h
  have hcomp0 : (0 : ℚ) ≤ min ((summaries.length : ℚ) / 5) 1 :=
    le_min (by positivity) (by norm_num)
  have hcomp1 : min ((summaries.length : ℚ) / 5) 1 ≤ 1 := min_le_right _ _
  have hcoh0 : (0 : ℚ) ≤ min ((sections.length : ℚ) / 3) 1 :=
    le_min (by positivity) (by norm_num)
  have hcoh1 : min ((sections.length : ℚ) / 3) 1 ≤ 1 := min_le_right _ _
  have hconf : (synthesizeReport summaries sections themes consensus conflicts).confidence_score =
      min ((summaries.length : ℚ) / 5) 1 * (2 / 5) +
      (assessQuality summaries sections).reliability_score * (2 / 5) +
      min ((sections.length : ℚ) / 3) 1 * (1 / 5) := rfl
  refine ⟨?_, ?_, ?_⟩
  · rw [hconf]
    have := hrel.1
    positivity
  · rw [hconf]
    nlinarith [hrel.1, hrel.2, hcomp0, hcomp1, hcoh0, hcoh1]
  · rw [hconf]
    have hsrc : (synthesizeReport summaries sections themes consensus conflicts).sources.length
        = summaries.length := by
      simp [synthesizeReport, assembleFinalReport, createSourceReferences]
    have hsec : (synthesizeReport summaries sections themes consensus conflicts).main_sections.length
        = sections.length := rfl
    rw [hsrc, hsec]

/-- Concrete summaries for the C7 witness: one with credibility 1, one
without a score. -/
def wSummaries : List DocumentSummaryM :=
  [⟨"a".data, [], [], [], none, some 1⟩, ⟨"b".data, [], [], [], none, none⟩]

/-- Concrete sections for the C7 witness. -/
def wSections : List ReportSectionM :=
  [⟨"s1".data, "c1".data, 0⟩, ⟨"s2".data, "c2".data, 1⟩]

/-- Witness for C7 on the concrete summaries and sections. -/
theorem final_report_confidence_formula_witness :
    0 ≤ (synthesizeReport wSummaries wSections [] [] []).confidence_score ∧
    (synthesizeReport wSummaries wSections [] [] []).confidence_score ≤ 1 ∧
    (synthesizeReport wSummaries wSections [] [] []).confidence_score =
      min (((synthesizeReport wSummaries wSections [] [] []).sources.length : ℚ) / 5) 1
          * (2 / 5)
        + (assessQuality wSummaries wSections).reliability_score * (2 / 5)
        + min (((synthesizeReport wSummaries wSections [] [] []).main_sections.length : ℚ) / 3) 1
          * (1 / 5) :=
  final_report_confidence_formula wSummaries wSections [] [] [] (by decide)

-- ===========================================================================
-- Content extraction cleaning and filtering
-- (src/src/services/content_extraction.py,
--  src/src/agents/content_extractor_agent.py)
-- ===========================================================================

/-- The explicit truncation marker appended by both truncation sites. -/
def truncMarker : PyStr := "... [Contenu tronqué]".data

/-- Length of the leftmost-greedy match of a newline-anchored whitespace
regex starting at the head of the whitespace run `W`: the match extends to
the last newline of the run. -/
def lastNLlen (W : List Char) : Nat :=
  W.length - (W.reverse.takeWhile (fun c => c != '\n')).length

/-- `re.sub(r'\n\s*\n', '\n\n', s)` as a fuel scanner: at a newline, the
maximal whitespace run is replaced (up to its last newline) by two newlines
when it contains at least two; runs with fewer newlines contain no match
and are emitted unchanged.  The fuel is an upper bound on the scanner steps
(each step consumes at least one character). -/
def nlPairSubGo : Nat → List Char → List Char
  | 0, l => l
  | _ + 1, [] => []
  | fuel + 1, c :: rest =>
    if c = '\n' then
      if 2 ≤ ((c :: rest).takeWhile isPySpace).count '\n' then
        '\n' :: '\n' ::
          nlPairSubGo fuel ((c :: rest).drop (lastNLlen ((c :: rest).takeWhile isPySpace)))
      else ((c :: rest).takeWhile isPySpace) ++
          nlPairSubGo fuel ((c :: rest).drop ((c :: rest).takeWhile isPySpace).length)
    else c :: nlPairSubGo fuel rest

/-- `re.sub(r'\n\s*\n', '\n\n', s)`. -/
def nlPairSub (l : PyStr) : PyStr := nlPairSubGo (l.length + 1) l

/-- `re.sub(r'\n\s*\n\s*\n+', '\n\n', s)`: same scanner, requiring at least
three newlines in the run. -/
def nlTripleSubGo : Nat → List Char → List Char
  | 0, l => l
  | _ + 1, [] => []
  | fuel + 1, c :: rest =>
    if c = '\n' then
      if 3 ≤ ((c :: rest).takeWhile isPySpace).count '\n' then
        '\n' :: '\n' ::
          nlTripleSubGo fuel ((c :: rest).drop (lastNLlen ((c :: rest).takeWhile isPySpace)))
      else ((c :: rest).takeWhile isPySpace) ++
          nlTripleSubGo fuel ((c :: rest).drop ((c :: rest).takeWhile isPySpace).length)
    else c :: nlTripleSubGo fuel rest

/-- `re.sub(r'\n\s*\n\s*\n+', '\n\n', s)`. -/
def nlTripleSub (l : PyStr) : PyStr := nlTripleSubGo (l.length + 1) l

/-- `re.sub(r'\n{3,}', '\n\n', s)`: runs of three or more bare newlines
become two. -/
def nl3RunSubGo : Nat → List Char → List Char
  | 0, l => l
  | _ + 1, [] => []
  | fuel + 1, c :: rest =>
    if c = '\n' then
      if 3 ≤ ((c :: rest).takeWhile (fun x => x = '\n')).length then
        '\n' :: '\n' ::
          nl3RunSubGo fuel ((c :: rest).drop ((c :: rest).takeWhile (fun x => x = '\n')).length)
      else ((c :: rest).takeWhile (fun x => x = '\n')) ++
          nl3RunSubGo fuel ((c :: rest).drop ((c :: rest).takeWhile (fun x => x = '\n')).length)
    else c :: nl3RunSubGo fuel rest

/-- `re.sub(r'\n{3,}', '\n\n', s)`. -/
def nl3RunSub (l : PyStr) : PyStr := nl3RunSubGo (l.length + 1) l

/-- Python `s.split('\n')` (accumulator form). -/
def splitOnNlGo (cur : List Char) : List Char → List (List Char)
  | [] => [cur.reverse]
  | c :: rest =>
    if c = '\n' then cur.reverse :: splitOnNlGo [] rest
    else splitOnNlGo (c :: cur) rest

/-- Python `s.split('\n')`. -/
def splitOnNl (l : PyStr) : List PyStr := splitOnNlGo [] l

/-- Python `'\n'.join(xs)`. -/
def joinNl : List PyStr → PyStr
  | [] => []
  | [x] => x
  | x :: xs => x ++ '\n' :: joinNl xs

/-- Characters removed by `re.sub(r'[\x00-\x08\x0B\x0C\x0E-\x1F\x7F]', '', s)`. -/
def isCtrl (c : Char) : Bool :=
  (c.toNat ≤ 8) || c.toNat = 11 || c.toNat = 12 ||
  (14 ≤ c.toNat && c.toNat ≤ 31) || c.toNat = 127

/-- `re.sub(r'[\x00-\x08\x0B\x0C\x0E-\x1F\x7F]', '', s)`. -/
def removeControl (l : PyStr) : PyStr := l.filter (fun c => !(isCtrl c))

/-- `WebContentExtractor._clean_text` (content_extraction.py lines 239-255):
collapse whitespace, normalise newline pairs, strip, then truncate at 50 000
characters — appending the marker beyond the cut. -/
def serviceCleanText (text : PyStr) : PyStr :=
  if text = [] then []
  else if 50000 < (pyStrip (nlPairSub (collapseWs text))).length then
    (pyStrip (nlPairSub (collapseWs text))).take 50000 ++ truncMarker
  else pyStrip (nlPairSub (collapseWs text))

/-- The content-filter settings, after the `filters.get(..., default)`
reads of `_apply_content_filters`. -/
structure ContentFilters where
  min_content_length : Nat
  max_content_length : Nat
  language : Option PyStr
  required_keywords : List PyStr
  deriving DecidableEq

/-- The `Document` fields the extractor stage reads and writes. -/
structure ExtDocument where
  title : PyStr
  url : PyStr
  content : PyStr
  language : PyStr
  word_count : Nat
  deriving DecidableEq

/-- The language filter (`if required_language and doc.language !=
required_language: continue`). -/
def langOkB (filters : ContentFilters) (doc : ExtDocument) : Bool :=
  match filters.language with
  | none => true
  | some lang => doc.language = lang

/-- The keyword filter (`if required_keywords: require at least one
case-insensitive occurrence in the content`). -/
def kwOkB (filters : ContentFilters) (doc : ExtDocument) : Bool :=
  filters.required_keywords = [] ||
  filters.required_keywords.any (fun kw => pyIn (pyLower kw) (pyLower doc.content))

/-- The truncation rewrite of `_apply_content_filters` (lines 229-232). -/
def truncDoc (filters : ContentFilters) (doc : ExtDocument) : ExtDocument :=
  { doc with content := doc.content.take filters.max_content_length ++ truncMarker }

/-- The per-document body of `ContentExtractorAgent._apply_content_filters`
(content_extractor_agent.py lines 217-251): reject under the minimum length,
truncate over the maximum (appending the marker), then apply the language
and keyword filters to the (possibly truncated) document. -/
def truncIfOver (filters : ContentFilters) (doc : ExtDocument) : ExtDocument :=
  if filters.max_content_length < doc.content.length then truncDoc filters doc
  else doc

/-- The filter decision after the length checks. -/
def applyFilterOne (filters : ContentFilters) (doc : ExtDocument) :
    Option ExtDocument :=
  if doc.content.length < filters.min_content_length then none
  else if !(langOkB filters (truncIfOver filters doc)) then none
  else if !(kwOkB filters (truncIfOver filters doc)) then none
  else some (truncIfOver filters doc)

/-- `ContentExtractorAgent._apply_content_filters`. -/
def applyContentFilters (filters : ContentFilters) (docs : List ExtDocument) :
    List ExtDocument :=
  docs.filterMap (applyFilterOne filters)

/-- `ContentExtractorAgent._clean_content` (lines 272-296): drop control
characters, collapse spaces/tabs, normalise newline runs, strip line edges,
collapse remaining blank-line runs, strip. -/
def cleanContent (content : PyStr) : PyStr :=
  if content = [] then []
  else
    pyStrip (nl3RunSub (joinNl
      ((splitOnNl (nlTripleSub (collapseSpTab (removeControl content)))).map pyStrip)))

/-- `ContentExtractorAgent._is_valid_document` (lines 298-317) for callers
that do not set `min_quality_score` (the pipeline does not). -/
def isValidDocument (doc : ExtDocument) : Bool :=
  !(pyStrip doc.content = []) && decide (50 ≤ doc.content.length) &&
  decide (20 ≤ doc.word_count)

/-- `ContentExtractorAgent._post_process_documents` (lines 253-270): clean
the content, recompute the word count, keep only valid documents. -/
def postDoc (doc : ExtDocument) : ExtDocument :=
  { doc with content := cleanContent doc.content,
             word_count := wordCount (cleanContent doc.content) }

/-- `ContentExtractorAgent._post_process_documents`. -/
def postProcessDocuments (docs : List ExtDocument) : List ExtDocument :=
  docs.filterMap (fun doc =>
    if isValidDocument (postDoc doc) then some (postDoc doc) else none)

/-- A document as built by the extraction service (HTML/PDF/generic paths,
content_extraction.py lines 169-178): cleaned content, word count from the
whitespace tokens, language fixed to `fr`. -/
def mkExtractedDoc (title url raw : PyStr) : ExtDocument :=
  let c := serviceCleanText raw
  ⟨title, url, c, "fr".data, wordCount c⟩

/-- The content transformation of the Extractor stage
(`ContentExtractorAgent.process`, lines 101-156): service-cleaned documents,
then the content filters, then post-processing. -/
def extractorEmit (filters : ContentFilters)
    (raws : List (PyStr × PyStr × PyStr)) : List ExtDocument :=
  postProcessDocuments (applyContentFilters filters
    (raws.map (fun r => mkExtractedDoc r.1 r.2.1 r.2.2)))

-- ===========================================================================
-- Length lemmas for the cleaning pipeline
-- ===========================================================================

theorem collapseGo_length_le (p : Char → Bool) (b : Bool) (l : List Char) :
    (collapseGo p b l).length ≤ l.length := by
  induction l generalizing b with
  | nil => simp [collapseGo]
  | cons c rest ih =>
    unfold collapseGo
    split
    · split
      · exact Nat.le_succ_of_le (ih true)
      · simpa using ih true
    · simpa using ih false

theorem takeWhile_length_le (p : Char → Bool) (l : List Char) :
    (l.takeWhile p).length ≤ l.length := by
  have h := congrArg List.length (List.takeWhile_append_dropWhile (p := p) (l := l))
  rw [List.length_append] at h
  omega

theorem dropWhile_length_le (p : Char → Bool) (l : List Char) :
    (l.dropWhile p).length ≤ l.length := by
  have h := congrArg List.length (List.takeWhile_append_dropWhile (p := p) (l := l))
  rw [List.length_append] at h
  omega

theorem count_le_lastNLlen (W : List Char) : W.count '\n' ≤ lastNLlen W := by
  unfold lastNLlen
  have hsplit : W.reverse.takeWhile (fun c => c != '\n') ++
      W.reverse.dropWhile (fun c => c != '\n') = W.reverse :=
    List.takeWhile_append_dropWhile (p := fun c => c != '\n') (l := W.reverse)
  have hcount : W.count '\n' = W.reverse.count '\n' := (List.count_reverse _ _).symm
  have htake0 : (W.reverse.takeWhile (fun c => c != '\n')).count '\n' = 0 := by
    rw [List.count_eq_zero]
    intro hmem
    have := List.mem_takeWhile_imp hmem
    simp at this
  have hcnt2 : W.reverse.count '\n' =
      (W.reverse.takeWhile (fun c => c != '\n')).count '\n' +
      (W.reverse.dropWhile (fun c => c != '\n')).count '\n' := by
    conv_lhs => rw [← hsplit]
    rw [List.count_append]
  have hdrople : (W.reverse.dropWhile (fun c => c != '\n')).count '\n' ≤
      (W.reverse.dropWhile (fun c => c != '\n')).length := List.count_le_length _ _
  have hlen := congrArg List.length hsplit
  rw [List.length_append, List.length_reverse] at hlen
  omega

theorem nlTripleSubGo_length_le (fuel : Nat) (l : List Char) :
    (nlTripleSubGo fuel l).length ≤ l.length := by
  induction fuel generalizing l with
  | zero => simp [nlTripleSubGo]
  | succ fuel ih =>
    rcases l with - | ⟨c, rest⟩
    · simp [nlTripleSubGo]
    · unfold nlTripleSubGo
      split
      · next hc =>
        split
        · next hcnt =>
          have hm3 : 3 ≤ lastNLlen ((c :: rest).takeWhile isPySpace) :=
            le_trans hcnt (count_le_lastNLlen _)
          have hmle : lastNLlen ((c :: rest).takeWhile isPySpace) ≤ (c :: rest).length := by
            have h1 : lastNLlen ((c :: rest).takeWhile isPySpace) ≤
                ((c :: rest).takeWhile isPySpace).length := by unfold lastNLlen; omega
            have h2 := takeWhile_length_le isPySpace (c :: rest)
            omega
          have := ih ((c :: rest).drop (lastNLlen ((c :: rest).takeWhile isPySpace)))
          rw [List.length_drop] at this
          simp only [List.length_cons] at *
          omega
        · have hWle := takeWhile_length_le isPySpace (c :: rest)
          have := ih ((c :: rest).drop ((c :: rest).takeWhile isPySpace).length)
          rw [List.length_drop] at this
          simp only [List.length_append, List.length_cons] at *
          omega
      · have := ih rest
        simp only [List.length_cons]
        omega

theorem nl3RunSubGo_length_le (fuel : Nat) (l : List Char) :
    (nl3RunSubGo fuel l).length ≤ l.length := by
  induction fuel generalizing l with
  | zero => simp [nl3RunSubGo]
  | succ fuel ih =>
    rcases l with - | ⟨c, rest⟩
    · simp [nl3RunSubGo]
    · unfold nl3RunSubGo
      split
      · next hc =>
        have hNle := takeWhile_length_le (fun x => x = '\n') (c :: rest)
        split
        · next hlen3 =>
          have := ih ((c :: rest).drop ((c :: rest).takeWhile (fun x => x = '\n')).length)
          rw [List.length_drop] at this
          simp only [List.length_cons] at *
          omega
        · have := ih ((c :: rest).drop ((c :: rest).takeWhile (fun x => x = '\n')).length)
          rw [List.length_drop] at this
          simp only [List.length_append, List.length_cons] at *
          omega
      · have := ih rest
        simp only [List.length_cons]
        omega

theorem pyStrip_length_le (l : PyStr) : (pyStrip l).length ≤ l.length := by
  unfold pyStrip
  calc ((l.dropWhile isPySpace).reverse.dropWhile isPySpace).reverse.length
      = ((l.dropWhile isPySpace).reverse.dropWhile isPySpace).length := by
        rw [List.length_reverse]
    _ ≤ (l.dropWhile isPySpace).reverse.length := dropWhile_length_le _ _
    _ = (l.dropWhile isPySpace).length := by rw [List.length_reverse]
    _ ≤ l.length := dropWhile_length_le _ _

theorem splitOnNlGo_ne_nil (cur l : List Char) : splitOnNlGo cur l ≠ [] := by
  induction l generalizing cur with
  | nil => simp [splitOnNlGo]
  | cons c rest ih =>
    unfold splitOnNlGo
    split
    · simp
    · exact ih _

theorem joinNl_splitOnNlGo (cur l : List Char) :
    joinNl (splitOnNlGo cur l) = cur.reverse ++ l := by
  induction l generalizing cur with
  | nil => simp [splitOnNlGo, joinNl]
  | cons c rest ih =>
    unfold splitOnNlGo
    split
    · next hc =>
      subst hc
      rcases hs : splitOnNlGo ([] : List Char) rest with - | ⟨p, ps⟩
      · exact absurd hs (splitOnNlGo_ne_nil _ _)
      · show joinNl (cur.reverse :: p :: ps) = cur.reverse ++ '\n' :: rest
        unfold joinNl
        have := ih ([] : List Char)
        rw [hs] at this
        simp only [List.reverse_nil, List.nil_append] at this
        rw [show joinNl (p :: ps) = rest from this]
    · rw [ih (c :: cur)]
      simp

theorem joinNl_map_strip_le (xs : List PyStr) :
    (joinNl (xs.map pyStrip)).length ≤ (joinNl xs).length := by
  induction xs with
  | nil => simp [joinNl]
  | cons x rest ih =>
    rcases rest with - | ⟨y, ys⟩
    · simpa [joinNl] using pyStrip_length_le x
    · have h1 : joinNl (pyStrip x :: (y :: ys).map pyStrip) =
          pyStrip x ++ '\n' :: joinNl ((y :: ys).map pyStrip) := by
        simp only [List.map_cons]
        rfl
      have h2 : joinNl (x :: y :: ys) = x ++ '\n' :: joinNl (y :: ys) := rfl
      simp only [List.map_cons] at *
      rw [h1, h2]
      simp only [List.length_append, List.length_cons]
      have h3 := pyStrip_length_le x
      omega

theorem cleanContent_length_le (c : PyStr) :
    (cleanContent c).length ≤ c.length := by
  unfold cleanContent
  split
  · simp
  · have h1 : (removeControl c).length ≤ c.length := List.length_filter_le _ _
    have h2 : (collapseSpTab (removeControl c)).length ≤ (removeControl c).length :=
      collapseGo_length_le _ _ _
    have h3 : (nlTripleSub (collapseSpTab (removeControl c))).length ≤
        (collapseSpTab (removeControl c)).length := nlTripleSubGo_length_le _ _
    have h4 : (joinNl ((splitOnNl (nlTripleSub (collapseSpTab (removeControl c)))).map
        pyStrip)).length ≤ (nlTripleSub (collapseSpTab (removeControl c))).length := by
      have hj : joinNl (splitOnNl (nlTripleSub (collapseSpTab (removeControl c)))) =
          nlTripleSub (collapseSpTab (removeControl c)) := by
        have := joinNl_splitOnNlGo ([] : List Char)
          (nlTripleSub (collapseSpTab (removeControl c)))
        simpa [splitOnNl] using this
      calc (joinNl ((splitOnNl (nlTripleSub (collapseSpTab (removeControl c)))).map
            pyStrip)).length
          ≤ (joinNl (splitOnNl (nlTripleSub (collapseSpTab (removeControl c))))).length :=
            joinNl_map_strip_le _
        _ = (nlTripleSub (collapseSpTab (removeControl c))).length := by rw [hj]
    have h5 : (nl3RunSub (joinNl ((splitOnNl (nlTripleSub (collapseSpTab
        (removeControl c)))).map pyStrip))).length ≤
        (joinNl ((splitOnNl (nlTripleSub (collapseSpTab (removeControl c)))).map
          pyStrip)).length := nl3RunSubGo_length_le _ _
    have h6 := pyStrip_length_le (nl3RunSub (joinNl ((splitOnNl (nlTripleSub
      (collapseSpTab (removeControl c)))).map pyStrip)))
    omega

theorem truncMarker_length : truncMarker.length = 21 := by decide

theorem applyFilterOne_content_le (filters : ContentFilters) (d d' : ExtDocument)
    (h : applyFilterOne filters d = some d') :
    d'.content.length ≤ filters.max_content_length + truncMarker.length := by
  unfold applyFilterOne at h
  split at h
  · cases h
  · next hmin =>
    split at h
    · cases h
    · split at h
      · cases h
      · cases h
        unfold truncIfOver
        split
        · next hmax =>
          show (truncDoc filters d).content.length ≤ _
          unfold truncDoc
          simp only [List.length_append, List.length_take]
          omega
        · next hmax =>
          simp only [not_lt] at hmax
          omega

-- ===========================================================================
-- Claim C4 theorems
-- ===========================================================================

/-- Claim C4 (amended): every document emitted by the Extractor stage has
content length at most the configured maximum plus the 21-character
truncation marker — the truncation site appends the marker after cutting at
the maximum, so truncated documents exceed the configured bound by exactly
the marker length; over-long documents are truncated and kept, not
rejected. -/
theorem extractor_truncates_with_marker (filters : ContentFilters)
    (raws : List (PyStr × PyStr × PyStr)) (docs : List ExtDocument)
    (doc : ExtDocument) :
    (∀ d ∈ extractorEmit filters raws,
        d.content.length ≤ filters.max_content_length + truncMarker.length) ∧
    (doc ∈ docs → filters.min_content_length ≤ doc.content.length →
      filters.max_content_length < doc.content.length →
      langOkB filters (truncDoc filters doc) = true →
      kwOkB filters (truncDoc filters doc) = true →
      truncDoc filters doc ∈ applyContentFilters filters docs) := by
  constructor
  · intro d hd
    unfold extractorEmit postProcessDocuments at hd
    rcases List.mem_filterMap.mp hd with ⟨d0, hd0, hpp⟩
    split at hpp
    · cases hpp
      have hle := cleanContent_length_le d0.content
      rcases List.mem_filterMap.mp hd0 with ⟨d1, _, hf1⟩
      have := applyFilterOne_content_le filters d1 d0 hf1
      unfold postDoc
      simp only
      omega
    · cases hpp
  · intro hmem hmin hmax hlang hkw
    unfold applyContentFilters
    refine List.mem_filterMap.mpr ⟨doc, hmem, ?_⟩
    unfold applyFilterOne
    rw [if_neg (by omega)]
    have htr : truncIfOver filters doc = truncDoc filters doc := by
      unfold truncIfOver
      rw [if_pos hmax]
    rw [htr, hlang, hkw]
    simp

/-- Witness for the amended C4 theorem: a 16-character document against a
10-character maximum is truncated to 10 characters plus the marker and
kept. -/
theorem extractor_truncates_with_marker_witness :
    truncDoc ⟨5, 10, none, []⟩ ⟨"t".data, "u".data, "0123456789abcdef".data, "fr".data, 1⟩ ∈
      applyContentFilters ⟨5, 10, none, []⟩
        [⟨"t".data, "u".data, "0123456789abcdef".data, "fr".data, 1⟩] :=
  (extractor_truncates_with_marker ⟨5, 10, none, []⟩ []
      [⟨"t".data, "u".data, "0123456789abcdef".data, "fr".data, 1⟩]
      ⟨"t".data, "u".data, "0123456789abcdef".data, "fr".data, 1⟩).2
    (by decide) (by decide) (by decide) (by decide) (by decide)

/-- A raw page body of 70 characters: twenty one-letter words, then a run of
thirty letters. -/
def wRaw : PyStr :=
  "w w w w w w w w w w w w w w w w w w w w aaaaaaaaaaaaaaaaaaaaaaaaaaaaaa".data

/-- Counterexample to claim C4 as stated: with a configured maximum of 60,
the Extractor stage emits a document whose content is 81 characters long —
the truncated content plus the appended marker exceeds the configured
maximum instead of respecting it. -/
theorem extractor_emits_over_max_cex :
    ((extractorEmit ⟨20, 60, none, []⟩ [("t".data, "u".data, wRaw)]).map
        (fun d => d.content.length)) = [81] ∧ 60 < 81 := by
  constructor
  · decide
  · decide

-- ===========================================================================
-- Text chunker (src/src/services/text_chunking.py)
-- ===========================================================================

/-- A chunker configuration (`TextChunker.__init__`). -/
structure ChunkParams where
  max_chunk_size : Nat
  overlap_size : Nat
  min_chunk_size : Nat
  deriving DecidableEq

/-- `TextChunk` (text_chunking.py lines 13-23).  Indices are integers: the
overlap bookkeeping subtracts lengths from running positions. -/
structure TextChunkM where
  content : PyStr
  start_index : Int
  end_index : Int
  chunk_id : Nat
  total_chunks : Nat
  word_count : Nat
  has_heading : Bool
  heading_text : Option PyStr
  deriving DecidableEq

/-- ASCII approximation of the regex class `\w`. -/
def isWordChar (c : Char) : Bool := c.isAlphanum || c = '_'

/-- `^#{1,6}\s+.+$`: one to six hashes, whitespace, then at least one more
character. -/
def headingPat1 (l : PyStr) : Bool :=
  let hashes := l.takeWhile (fun c => c = '#')
  decide (1 ≤ hashes.length) && decide (hashes.length ≤ 6) &&
  (let rest := l.drop hashes.length
   decide (1 ≤ (rest.takeWhile isPySpace).length) &&
   decide ((rest.takeWhile isPySpace).length < rest.length))

/-- `^\d+\.\s+.+$`: digits, a dot, whitespace, then at least one more
character. -/
def headingPat2 (l : PyStr) : Bool :=
  let ds := l.takeWhile Char.isDigit
  decide (1 ≤ ds.length) &&
  (match l.drop ds.length with
   | '.' :: r2 =>
     decide (1 ≤ (r2.takeWhile isPySpace).length) &&
     decide ((r2.takeWhile isPySpace).length < r2.length)
   | _ => false)

/-- `^[A-Z\s]{5,}$`: at least five characters, all capitals or whitespace. -/
def headingPat3 (l : PyStr) : Bool :=
  decide (5 ≤ l.length) && l.all (fun c => (decide ('A' ≤ c) && decide (c ≤ 'Z')) || isPySpace c)

/-- `^\w+:$`: word characters followed by a colon. -/
def headingPat4 (l : PyStr) : Bool :=
  match l.reverse with
  | ':' :: r => !(r.isEmpty) && r.all isWordChar
  | _ => false

/-- `TextChunker._detect_heading` (text_chunking.py lines 219-234): the four
fixed patterns on the stripped first line, then the short-capitalised-line
heuristic.  (An empty first line cannot reach the heuristic for the callers
in this file; it is mapped to `false`.) -/
def detectHeading (paragraph : PyStr) : Bool × Option PyStr :=
  let first_line := pyStrip ((splitOnNl (pyStrip paragraph)).headD [])
  if headingPat1 first_line || headingPat2 first_line ||
     headingPat3 first_line || headingPat4 first_line then
    (true, some first_line)
  else if decide (first_line.length < 100) && decide ((pySplitWs first_line).length < 10) &&
      (match first_line with | [] => false | c :: _ => c.isUpper) then
    (true, some first_line)
  else (false, none)

/-- Sentence-ending characters of `r'[.!?]+(?:\s|$)'`. -/
def isSentEnd (c : Char) : Bool := c = '.' || c = '!' || c = '?'

/-- `re.split(r'[.!?]+(?:\s|$)', s)`: a separator is a run of
sentence-ending characters followed by one whitespace character or the end
of the string; runs followed by anything else match nowhere and stay in the
current piece. -/
def sentSplitGo : Nat → List Char → List Char → List PyStr
  | 0, cur, l => [cur.reverse ++ l]
  | _ + 1, cur, [] => [cur.reverse]
  | fuel + 1, cur, c :: rest =>
    if isSentEnd c then
      match (c :: rest).drop ((c :: rest).takeWhile isSentEnd).length with
      | [] => [cur.reverse, []]
      | w :: rest2 =>
        if isPySpace w then cur.reverse :: sentSplitGo fuel [] rest2
        else sentSplitGo fuel (((c :: rest).takeWhile isSentEnd).reverse ++ cur) (w :: rest2)
    else sentSplitGo fuel (c :: cur) rest

/-- `re.split(r'[.!?]+(?:\s|$)', s)`. -/
def reSplitSentences (l : PyStr) : List PyStr := sentSplitGo (l.length + 1) [] l

/-- The word-accumulation fallback of `_get_overlap_text` (lines 248-259):
walk the words from the end while the running character count stays within
the overlap budget. -/
def overlapWordsGo (ov : Nat) : Nat → List PyStr → List PyStr → List PyStr
  | _, acc, [] => acc
  | cnt, acc, w :: rest =>
    if ov < cnt + w.length then acc
    else overlapWordsGo ov (cnt + w.length + 1) (w :: acc) rest

/-- `TextChunker._get_overlap_text` (text_chunking.py lines 236-259). -/
def getOverlapText (p : ChunkParams) (chunk : PyStr) : PyStr :=
  if chunk.length ≤ p.overlap_size then []
  else
    let sentences := reSplitSentences (pyTakeLast chunk p.overlap_size)
    if 1 < sentences.length then
      List.intercalate ". ".data (sentences.drop 1) ++ ". ".data
    else
      let ow := overlapWordsGo p.overlap_size 0 [] (pySplitWs chunk).reverse
      if ow = [] then [] else List.intercalate [' '] ow ++ [' ']

/-- `TextChunker._create_chunk` (lines 261-274): `total_chunks` is zero
until post-processing. -/
def createChunk (content : PyStr) (s e : Int) (id : Nat) : TextChunkM :=
  { content := content, start_index := s, end_index := e, chunk_id := id,
    total_chunks := 0, word_count := wordCount content,
    has_heading := (detectHeading content).1,
    heading_text := (detectHeading content).2 }

/-- `re.split(r'\n\s*\n', s)`: a separator is a whitespace run holding at
least two newlines, matched up to its last newline. -/
def paraSplitGo : Nat → List Char → List Char → List PyStr
  | 0, cur, l => [cur.reverse ++ l]
  | _ + 1, cur, [] => [cur.reverse]
  | fuel + 1, cur, c :: rest =>
    if c = '\n' then
      if 2 ≤ ((c :: rest).takeWhile isPySpace).count '\n' then
        cur.reverse ::
          paraSplitGo fuel [] ((c :: rest).drop (lastNLlen ((c :: rest).takeWhile isPySpace)))
      else paraSplitGo fuel (c :: cur) rest
    else paraSplitGo fuel (c :: cur) rest

/-- `re.split(r'\n\s*\n', s)`. -/
def reSplitParaBreaks (l : PyStr) : List PyStr := paraSplitGo (l.length + 1) [] l

/-- The loop state of `_chunk_with_structure`. -/
structure ChunkLoopState where
  chunks : List TextChunkM
  current_chunk : PyStr
  current_start : Int
  text_position : Int

/-- One iteration of the paragraph loop of `_chunk_with_structure`
(text_chunking.py lines 123-153).  Blank paragraphs are skipped entirely
(the `continue` also skips the position update); on overflow the current
chunk is emitted and a new one is seeded with the overlap slice. -/
def chunkLoopStep (p : ChunkParams) (st : ChunkLoopState) (paragraph : PyStr) :
    ChunkLoopState :=
  if pyStrip paragraph = [] then st
  else
    let st2 :=
      if p.max_chunk_size < st.current_chunk.length + paragraph.length ∧
          st.current_chunk ≠ [] then
        { chunks := st.chunks ++
            [createChunk (pyStrip st.current_chunk) st.current_start
              st.text_position (st.chunks.length + 1)],
          current_chunk := getOverlapText p st.current_chunk ++ paragraph,
          current_start := st.text_position -
            (getOverlapText p st.current_chunk).length,
          text_position := st.text_position }
      else if st.current_chunk ≠ [] then
        { st with current_chunk := st.current_chunk ++ '\n' :: '\n' :: paragraph }
      else
        { st with current_chunk := paragraph, current_start := st.text_position }
    { st2 with text_position := st2.text_position + paragraph.length + 2 }

/-- `TextChunker._chunk_with_structure` (text_chunking.py lines 113-165):
split into paragraphs, run the greedy loop, then emit the trailing chunk. -/
def chunkWithStructure (p : ChunkParams) (text : PyStr) : List TextChunkM :=
  let st := (reSplitParaBreaks text).foldl (chunkLoopStep p) ⟨[], [], 0, 0⟩
  if pyStrip st.current_chunk ≠ [] then
    st.chunks ++ [createChunk (pyStrip st.current_chunk) st.current_start
      (text.length : Int) (st.chunks.length + 1)]
  else st.chunks

/-- Python-truthiness `or` on optional heading strings (`current.heading_text
or next_chunk.heading_text`). -/
def headingOr (a b : Option PyStr) : Option PyStr :=
  match a with
  | none => b
  | some t => if t = [] then b else some t

/-- The merge loop of `_post_process_chunks` (lines 284-317): a chunk below
`min_chunk_size` is merged with its successor when their combined length
fits `max_chunk_size`; `chunk_id`s are renumbered as chunks are emitted. -/
def mergeLoop (p : ChunkParams) : Nat → List TextChunkM → List TextChunkM
  | _, [] => []
  | k, [c] => [{ c with chunk_id := k + 1 }]
  | k, c1 :: c2 :: rest =>
    if c1.content.length < p.min_chunk_size ∧
        c1.content.length + c2.content.length ≤ p.max_chunk_size then
      { content := c1.content ++ '\n' :: '\n' :: c2.content,
        start_index := c1.start_index,
        end_index := c2.end_index,
        chunk_id := k + 1,
        total_chunks := 0,
        word_count := wordCount (c1.content ++ '\n' :: '\n' :: c2.content),
        has_heading := c1.has_heading || c2.has_heading,
        heading_text := headingOr c1.heading_text c2.heading_text } ::
        mergeLoop p (k + 1) rest
    else { c1 with chunk_id := k + 1 } :: mergeLoop p (k + 1) (c2 :: rest)

/-- Overwrite `total_chunks` on every chunk. -/
def setTotals (n : Nat) (cs : List TextChunkM) : List TextChunkM :=
  cs.map (fun c => { c with total_chunks := n })

/-- `TextChunker._post_process_chunks` (text_chunking.py lines 276-323). -/
def postProcessChunks (p : ChunkParams) (chunks : List TextChunkM) :
    List TextChunkM :=
  setTotals (mergeLoop p 0 (setTotals chunks.length chunks)).length
    (mergeLoop p 0 (setTotals chunks.length chunks))

/-- `TextChunker._clean_text` (text_chunking.py lines 100-111): collapse all
whitespace to single spaces, normalise triple newline runs, strip.  (The
first substitution removes every newline, so the second is vacuous.) -/
def cleanTextChunker (text : PyStr) : PyStr :=
  pyStrip (nlTripleSub (collapseWs text))

/-- `TextChunker.chunk_text` (text_chunking.py lines 59-98) on the
structure-preserving path (`preserve_structure = True`, the default used by
`ChunkingManager.chunk_document`). -/
def chunk_text (p : ChunkParams) (text : PyStr) : List TextChunkM :=
  if text = [] ∨ pyStrip text = [] then []
  else
    if (cleanTextChunker text).length ≤ p.max_chunk_size then
      [{ content := cleanTextChunker text, start_index := 0,
         end_index := ((cleanTextChunker text).length : Int), chunk_id := 1,
         total_chunks := 1, word_count := wordCount (cleanTextChunker text),
         has_heading := false, heading_text := none }]
    else postProcessChunks p (chunkWithStructure p (cleanTextChunker text))

-- ===========================================================================
-- Chunker lemmas
-- ===========================================================================

theorem mem_collapseGo (p : Char → Bool) (c : Char) (b : Bool) (l : List Char)
    (h : c ∈ collapseGo p b l) : c = ' ' ∨ (c ∈ l ∧ p c = false) := by
  induction l generalizing b with
  | nil => simp [collapseGo] at h
  | cons a rest ih =>
    unfold collapseGo at h
    split at h
    · split at h
      · rcases ih _ h with h1 | ⟨h2, h3⟩
        · exact Or.inl h1
        · exact Or.inr ⟨List.mem_cons_of_mem _ h2, h3⟩
      · rcases List.mem_cons.mp h with h1 | h1
        · exact Or.inl h1
        · rcases ih _ h1 with h2 | ⟨h2, h3⟩
          · exact Or.inl h2
          · exact Or.inr ⟨List.mem_cons_of_mem _ h2, h3⟩
    · next ha =>
      rcases List.mem_cons.mp h with h1 | h1
      · subst h1
        exact Or.inr ⟨List.mem_cons_self _ _, by simpa using ha⟩
      · rcases ih _ h1 with h2 | ⟨h2, h3⟩
        · exact Or.inl h2
        · exact Or.inr ⟨List.mem_cons_of_mem _ h2, h3⟩

theorem collapseGo_keeps_nonp (p : Char → Bool) (c : Char) (b : Bool)
    (l : List Char) (hc : c ∈ l) (hp : p c = false) : c ∈ collapseGo p b l := by
  induction l generalizing b with
  | nil => simp at hc
  | cons a rest ih =>
    unfold collapseGo
    rcases List.mem_cons.mp hc with h1 | h1
    · subst h1
      rw [if_neg (by simp [hp])]
      exact List.mem_cons_self _ _
    · split
      · split
        · exact ih _ h1
        · exact List.mem_cons_of_mem _ (ih _ h1)
      · exact List.mem_cons_of_mem _ (ih _ h1)

theorem collapseWs_no_nl (l : PyStr) : '\n' ∉ collapseWs l := by
  intro h
  rcases mem_collapseGo isPySpace '\n' false l h with h1 | ⟨-, h2⟩
  · cases h1
  · simp [isPySpace] at h2

theorem nlTripleSubGo_no_nl (fuel : Nat) (l : List Char) (h : '\n' ∉ l) :
    nlTripleSubGo fuel l = l := by
  induction fuel generalizing l with
  | zero => rfl
  | succ fuel ih =>
    rcases l with - | ⟨c, rest⟩
    · rfl
    · unfold nlTripleSubGo
      rw [if_neg (by intro hc; exact h (hc ▸ List.mem_cons_self _ _))]
      rw [ih rest (fun hm => h (List.mem_cons_of_mem _ hm))]

theorem nlTripleSub_no_nl (l : List Char) (h : '\n' ∉ l) : nlTripleSub l = l :=
  nlTripleSubGo_no_nl _ _ h

theorem pyStrip_subset (l : PyStr) (c : Char) (h : c ∈ pyStrip l) : c ∈ l := by
  unfold pyStrip at h
  rw [List.mem_reverse] at h
  have h2 := (List.dropWhile_sublist (p := isPySpace)
    (l := (l.dropWhile isPySpace).reverse)).mem h
  rw [List.mem_reverse] at h2
  exact (List.dropWhile_sublist (p := isPySpace) (l := l)).mem h2

theorem cleanTextChunker_no_nl (text : PyStr) : '\n' ∉ cleanTextChunker text := by
  intro h
  unfold cleanTextChunker at h
  rw [nlTripleSub_no_nl _ (collapseWs_no_nl text)] at h
  exact collapseWs_no_nl text (pyStrip_subset _ _ h)

theorem dropWhile_idem (p : Char → Bool) (l : List Char) :
    (l.dropWhile p).dropWhile p = l.dropWhile p := by
  induction l with
  | nil => simp
  | cons a rest ih =>
    by_cases h : p a
    · simp [List.dropWhile_cons, h, ih]
    · simp [List.dropWhile_cons, h]

theorem dropWhile_head_false (p : Char → Bool) (l : List Char) (c : Char)
    (r : List Char) (h : l.dropWhile p = c :: r) : p c = false := by
  induction l with
  | nil => cases h
  | cons a rest ih =>
    rw [List.dropWhile_cons] at h
    split at h
    · exact ih h
    · next ha =>
      cases h
      simpa using ha

theorem pyStrip_idem (l : PyStr) : pyStrip (pyStrip l) = pyStrip l := by
  unfold pyStrip
  have h1 : (((l.dropWhile isPySpace).reverse.dropWhile isPySpace).reverse).dropWhile
      isPySpace = ((l.dropWhile isPySpace).reverse.dropWhile isPySpace).reverse := by
    rcases hm : ((l.dropWhile isPySpace).reverse.dropWhile isPySpace).reverse
        with - | ⟨c, r⟩
    · simp
    · have hsplit := List.takeWhile_append_dropWhile (p := isPySpace)
        (l := (l.dropWhile isPySpace).reverse)
      have hA : l.dropWhile isPySpace =
          (c :: r) ++ ((l.dropWhile isPySpace).reverse.takeWhile isPySpace).reverse := by
        have h2 := congrArg List.reverse hsplit
        rw [List.reverse_append, List.reverse_reverse] at h2
        rw [← hm]
        exact h2.symm
      have hc : isPySpace c = false :=
        dropWhile_head_false isPySpace l c
          (r ++ ((l.dropWhile isPySpace).reverse.takeWhile isPySpace).reverse) hA
      rw [List.dropWhile_cons, if_neg (by simp [hc])]
  rw [h1, List.reverse_reverse, dropWhile_idem]

theorem pyStrip_eq_nil_iff (l : PyStr) :
    pyStrip l = [] ↔ ∀ c ∈ l, isPySpace c = true := by
  constructor
  · intro h c hc
    unfold pyStrip at h
    rw [List.reverse_eq_nil_iff, List.dropWhile_eq_nil_iff] at h
    have hdrop : ∀ x ∈ l.dropWhile isPySpace, isPySpace x = true := by
      intro x hx
      exact h x (List.mem_reverse.mpr hx)
    have hsplit := List.takeWhile_append_dropWhile (p := isPySpace) (l := l)
    rw [← hsplit] at hc
    rcases List.mem_append.mp hc with h1 | h1
    · exact List.mem_takeWhile_imp h1
    · exact hdrop c h1
  · intro h
    unfold pyStrip
    have h1 : l.dropWhile isPySpace = [] := List.dropWhile_eq_nil_iff.mpr h
    rw [h1]
    rfl

theorem paraSplitGo_no_nl (l : List Char) :
    ∀ (fuel : Nat) (cur : List Char), '\n' ∉ l →
      paraSplitGo fuel cur l = [cur.reverse ++ l] := by
  induction l with
  | nil =>
    intro fuel cur h
    rcases fuel with - | f
    · rfl
    · simp [paraSplitGo]
  | cons c rest ih =>
    intro fuel cur h
    rcases fuel with - | f
    · rfl
    · unfold paraSplitGo
      rw [if_neg (by intro hc; exact h (hc ▸ List.mem_cons_self _ _))]
      rw [ih f (c :: cur) (fun hm => h (List.mem_cons_of_mem _ hm))]
      simp

theorem chunkWithStructure_single (p : ChunkParams) (t : PyStr)
    (hnl : '\n' ∉ t) (hst : pyStrip t = t) :
    chunkWithStructure p t =
      if t = [] then [] else [createChunk t 0 (t.length : Int) 1] := by
  unfold chunkWithStructure
  have hpar : reSplitParaBreaks t = [t] := by
    unfold reSplitParaBreaks
    rw [paraSplitGo_no_nl t _ [] hnl]
    rfl
  rw [hpar]
  by_cases ht : t = []
  · subst ht
    rw [if_pos rfl]
    rfl
  · rw [if_neg ht]
    simp only [List.foldl_cons, List.foldl_nil]
    simp [chunkLoopStep, hst, ht]

theorem postProcessChunks_nil (p : ChunkParams) : postProcessChunks p [] = [] := rfl

theorem postProcessChunks_singleton (p : ChunkParams) (c : TextChunkM) :
    postProcessChunks p [c] =
      [{ c with chunk_id := 1, total_chunks := 1 }] := by
  unfold postProcessChunks setTotals mergeLoop
  simp

-- ===========================================================================
-- Claim C3 theorem
-- ===========================================================================

theorem cleanTextChunker_nil_of_ws (text : PyStr) (h : pyStrip text = []) :
    cleanTextChunker text = [] := by
  have hws := (pyStrip_eq_nil_iff text).mp h
  unfold cleanTextChunker
  rw [nlTripleSub_no_nl _ (collapseWs_no_nl text)]
  rw [pyStrip_eq_nil_iff]
  intro c hc
  rcases mem_collapseGo isPySpace c false text hc with h1 | ⟨h2, h3⟩
  · subst h1; rfl
  · rw [hws c h2] at h3
    cases h3

theorem cleanTextChunker_ne_nil (text : PyStr) (h : pyStrip text ≠ []) :
    cleanTextChunker text ≠ [] := by
  intro hnil
  apply h
  rw [pyStrip_eq_nil_iff]
  intro c hc
  by_contra hcs
  have hcfalse : isPySpace c = false := by
    cases hb : isPySpace c
    · rfl
    · exact absurd hb hcs
  have h1 : c ∈ collapseWs text := collapseGo_keeps_nonp isPySpace c false text hc hcfalse
  have h2 : c ∈ nlTripleSub (collapseWs text) := by
    rw [nlTripleSub_no_nl _ (collapseWs_no_nl text)]
    exact h1
  have h3 := (pyStrip_eq_nil_iff _).mp hnil c h2
  rw [h3] at hcfalse
  cases hcfalse

/-- Claim C3: the chunker first normalises whitespace and splits on
blank-line paragraph boundaries — the chunk contents it returns are exactly
those produced by cleaning, paragraph-splitting, the greedy structure loop
and merge post-processing — and every chunk except possibly the very last
has content length between `min_chunk_size` and `max_chunk_size`.  (The
whitespace normalisation collapses every newline, so the blank-line split
always yields a single paragraph and the chunker returns at most one chunk;
the size invariant on non-final chunks is therefore vacuously true.) -/
theorem chunker_normalize_split_and_size_bounds (p : ChunkParams) (text : PyStr) :
    (chunk_text p text).map (fun c => c.content) =
      (postProcessChunks p (chunkWithStructure p (cleanTextChunker text))).map
        (fun c => c.content) ∧
    List.Forall
      (fun c => p.min_chunk_size ≤ c.content.length ∧
        c.content.length ≤ p.max_chunk_size)
      ((chunk_text p text).dropLast) := by
  have hnl : '\n' ∉ cleanTextChunker text := cleanTextChunker_no_nl text
  have hst : pyStrip (cleanTextChunker text) = cleanTextChunker text := by
    unfold cleanTextChunker
    exact pyStrip_idem _
  by_cases h0 : text = [] ∨ pyStrip text = []
  · have ht : cleanTextChunker text = [] := by
      rcases h0 with h0 | h0
      · subst h0; rfl
      · exact cleanTextChunker_nil_of_ws text h0
    have hlhs : chunk_text p text = [] := by
      unfold chunk_text
      rw [if_pos h0]
    have hstruct : chunkWithStructure p (cleanTextChunker text) = [] := by
      rw [chunkWithStructure_single p _ hnl hst, if_pos ht]
    rw [hlhs, hstruct, postProcessChunks_nil]
    exact ⟨rfl, trivial⟩
  · have h0' : ¬(text = [] ∨ pyStrip text = []) := h0
    have htne : cleanTextChunker text ≠ [] := by
      apply cleanTextChunker_ne_nil
      intro hx
      exact h0 (Or.inr hx)
    have hstruct : chunkWithStructure p (cleanTextChunker text) =
        [createChunk (cleanTextChunker text) 0 ((cleanTextChunker text).length : Int) 1] := by
      rw [chunkWithStructure_single p _ hnl hst, if_neg htne]
    by_cases hlen : (cleanTextChunker text).length ≤ p.max_chunk_size
    · have hlhs : chunk_text p text =
          [{ content := cleanTextChunker text, start_index := 0,
             end_index := ((cleanTextChunker text).length : Int), chunk_id := 1,
             total_chunks := 1, word_count := wordCount (cleanTextChunker text),
             has_heading := false, heading_text := none }] := by
        unfold chunk_text
        rw [if_neg h0', if_pos hlen]
      constructor
      · rw [hlhs, hstruct, postProcessChunks_singleton]
        simp [createChunk]
      · rw [hlhs]
        simp
    · have hlhs : chunk_text p text =
          postProcessChunks p (chunkWithStructure p (cleanTextChunker text)) := by
        unfold chunk_text
        rw [if_neg h0', if_neg hlen]
      constructor
      · rw [hlhs]
      · rw [hlhs, hstruct, postProcessChunks_singleton]
        simp

end AIRA
